import Mathlib

/-!
Verification development for the Polymarket weather-arbitrage core of the
raphael-solana repository.

The development shallowly embeds the relevant TypeScript source files:

* the read-only oracle layer (erf approximation, normal CDF, bracket fair
  value, sigma interpolation, bracket-label parsing, bracket pricing and the
  per-city opportunity scan);
* the CLOB client's order-amount arithmetic and order-response handling;
* the per-tick trading strategy (position/balance guards, order submission);
* the two strategy-manager variants (status IPC with dead-daemon cleanup,
  start/stop lifecycle).

JavaScript numbers are modelled as real numbers (ℝ) in the numeric pricing
layer, and as rationals (ℚ) extended with infinities/NaN where the dynamic
semantics of division by zero and BigInt conversion matter.  Network and
filesystem effects are passed in explicitly (oracle functions and state
records), so every embedded function is a total Lean function of its inputs.
-/

namespace Raphael

/-! ### Pricing model (oracle layer)

Embeds the helpers of the oracle file: the Abramowitz–Stegun erf
approximation, the normal CDF, the half-step bracket fair value with its
clamp to [0,1], and the sigma interpolation. -/

noncomputable section PricingDefs

/-- Constant 0.3275911 of the Abramowitz–Stegun erf approximation. -/
def erfA : ℝ := 0.3275911

/-- Polynomial coefficient 0.254829592. -/
def erfC1 : ℝ := 0.254829592

/-- Polynomial coefficient -0.284496736. -/
def erfC2 : ℝ := -0.284496736

/-- Polynomial coefficient 1.421413741. -/
def erfC3 : ℝ := 1.421413741

/-- Polynomial coefficient -1.453152027. -/
def erfC4 : ℝ := -1.453152027

/-- Polynomial coefficient 1.061405429. -/
def erfC5 : ℝ := 1.061405429

/-- The nested polynomial `t * (c1 + t * (c2 + t * (c3 + t * (c4 + t * c5))))`
from the erf approximation. -/
def erfPoly (t : ℝ) : ℝ :=
  t * (erfC1 + t * (erfC2 + t * (erfC3 + t * (erfC4 + t * erfC5))))

/-- Derivative of `erfPoly`, used to establish its monotonicity. -/
def erfPolyDeriv (t : ℝ) : ℝ :=
  erfC1 + 2 * erfC2 * t + 3 * erfC3 * t ^ 2 + 4 * erfC4 * t ^ 3 + 5 * erfC5 * t ^ 4

/-- Body of the erf approximation for a non-negative argument:
`1 - poly(1 / (1 + a*x)) * exp(-x*x)`. -/
def erfAbsBody (x : ℝ) : ℝ :=
  1 - erfPoly (1 / (1 + erfA * x)) * Real.exp (-(x * x))

/-- The source's `erf`: odd reflection of `erfAbsBody`
(`sign = x < 0 ? -1 : 1` applied to the body at `|x|`). -/
def erf (x : ℝ) : ℝ :=
  if x < 0 then -erfAbsBody (-x) else erfAbsBody x

/-- The source's `normalCDF` on finite arguments:
`0.5 * (1 + erf((x - mu) / (sigma * SQRT2)))`. -/
def normalCDF (x mu sigma : ℝ) : ℝ :=
  0.5 * (1 + erf ((x - mu) / (sigma * Real.sqrt 2)))

/-- Lower-boundary CDF term of `bracketFairValue`:
`lo === -Infinity ? 0 : normalCDF(lo - 0.5, mu, sigma)`. -/
def loCDFterm (lo : WithBot ℝ) (mu sigma : ℝ) : ℝ :=
  match lo with
  | ⊥ => 0
  | (x : ℝ) => normalCDF (x - 0.5) mu sigma

/-- Upper-boundary CDF term of `bracketFairValue`:
`hi === Infinity ? 1 : normalCDF(hi + 0.5, mu, sigma)`. -/
def hiCDFterm (hi : WithTop ℝ) (mu sigma : ℝ) : ℝ :=
  match hi with
  | ⊤ => 1
  | (x : ℝ) => normalCDF (x + 0.5) mu sigma

/-- The source's `bracketFairValue`:
`Math.max(0, Math.min(1, hiCDF - loCDF))` with half-step boundaries. -/
def bracketFairValue (lo : WithBot ℝ) (hi : WithTop ℝ) (mu sigma : ℝ) : ℝ :=
  max 0 (min 1 (hiCDFterm hi mu sigma - loCDFterm lo mu sigma))

/-- The source's `forecastSigmaF`: 2 at up to 6 hours to close, 4 at 30 hours
or more, linear in between. -/
def forecastSigmaF (hoursUntilClose : ℝ) : ℝ :=
  if hoursUntilClose ≤ 6 then 2
  else if 30 ≤ hoursUntilClose then 4
  else 2 + ((hoursUntilClose - 6) / 24) * 2

/-- Modelled from the spec: the CDF `Φ` of the spec formula
`Φ((hi+0.5−μ)/(σ√2)) − Φ((lo−0.5−μ)/(σ√2))`.  The spec standardises by
`σ√2` (not `σ`), which identifies its `Φ` with `z ↦ 0.5·(1 + erf z)` for the
program's error function. -/
def specPhi (z : ℝ) : ℝ := 0.5 * (1 + erf z)

/-- Modelled from the spec: the fair-value formula of the specification,
with an unbounded upper end collapsing its CDF term to 1, an unbounded lower
end collapsing its CDF term to 0, and the result clamped to [0,1]. -/
def bracketFairValueSpec (lo : WithBot ℝ) (hi : WithTop ℝ) (mu sigma : ℝ) : ℝ :=
  let hiTerm : ℝ :=
    match hi with
    | ⊤ => 1
    | (x : ℝ) => specPhi ((x + 0.5 - mu) / (sigma * Real.sqrt 2))
  let loTerm : ℝ :=
    match lo with
    | ⊥ => 0
    | (x : ℝ) => specPhi ((x - 0.5 - mu) / (sigma * Real.sqrt 2))
  max 0 (min 1 (hiTerm - loTerm))

end PricingDefs

/-! ### Bracket-label parsing (oracle layer)

Embeds `parseBracketRange` and its four regular expressions over explicit
character lists.  Each alternative is tried in the source's order; digit
groups are greedy, exactly as `\d+` is against the remaining literal text
(no following literal can extend a digit run). -/

/-- Numeric value of a decimal digit character. -/
def digitVal (c : Char) : ℕ := c.toNat - Char.toNat '0'

/-- Value of a digit string, most significant digit first. -/
def digitsToNat (ds : List Char) : ℕ :=
  ds.foldl (fun a c => 10 * a + digitVal c) 0

/-- Greedy `\d+`: one or more leading digits and the remaining input. -/
def parseNat (s : List Char) : Option (ℕ × List Char) :=
  let ds := s.takeWhile Char.isDigit
  if ds.isEmpty then none
  else some (digitsToNat ds, s.dropWhile Char.isDigit)

/-- Greedy `-?\d+`: an optional leading minus sign then one or more digits. -/
def parseSignedInt (s : List Char) : Option (ℤ × List Char) :=
  match s with
  | [] => none
  | c :: rest =>
    if c = '-' then (parseNat rest).map fun p => (-(p.1 : ℤ), p.2)
    else (parseNat (c :: rest)).map fun p => ((p.1 : ℤ), p.2)

/-- Alternative 1 of `parseBracketRange`: `^(\d+)-(\d+)°F$`. -/
def tryRangeF (s : List Char) : Option (WithBot ℚ × WithTop ℚ) :=
  match parseNat s with
  | some (a, '-' :: r2) =>
    match parseNat r2 with
    | some (b, rest) =>
      if rest = ['°', 'F'] then some (((a : ℚ) : WithBot ℚ), ((b : ℚ) : WithTop ℚ))
      else none
    | none => none
  | _ => none

/-- Alternative 2 of `parseBracketRange`: `^(\d+)°F or below$`, yielding
`[-Infinity, n]`. -/
def tryBelow (s : List Char) : Option (WithBot ℚ × WithTop ℚ) :=
  match parseNat s with
  | some (n, rest) =>
    if rest = ['°', 'F', ' ', 'o', 'r', ' ', 'b', 'e', 'l', 'o', 'w'] then
      some (⊥, ((n : ℚ) : WithTop ℚ))
    else none
  | none => none

/-- Alternative 3 of `parseBracketRange`: `^(\d+)°F or higher$`, yielding
`[n, Infinity]`. -/
def tryHigher (s : List Char) : Option (WithBot ℚ × WithTop ℚ) :=
  match parseNat s with
  | some (n, rest) =>
    if rest = ['°', 'F', ' ', 'o', 'r', ' ', 'h', 'i', 'g', 'h', 'e', 'r'] then
      some (((n : ℚ) : WithBot ℚ), ⊤)
    else none
  | none => none

/-- Alternative 4 of `parseBracketRange`: `^(-?\d+)-(-?\d+)°C$`, converting
each Celsius bound via `C * 9/5 + 32`. -/
def tryRangeC (s : List Char) : Option (WithBot ℚ × WithTop ℚ) :=
  match parseSignedInt s with
  | some (a, '-' :: r2) =>
    match parseSignedInt r2 with
    | some (b, rest) =>
      if rest = ['°', 'C'] then
        some ((((a : ℚ) * 9 / 5 + 32 : ℚ) : WithBot ℚ), (((b : ℚ) * 9 / 5 + 32 : ℚ) : WithTop ℚ))
      else none
    | none => none
  | _ => none

/-- The source's `parseBracketRange`, trying the four label shapes in order;
`none` models the thrown "Cannot parse bracket" error. -/
def parseBracketRange (s : List Char) : Option (WithBot ℚ × WithTop ℚ) :=
  (tryRangeF s).orElse fun _ =>
    (tryBelow s).orElse fun _ =>
      (tryHigher s).orElse fun _ => tryRangeC s

/-- Decimal digit characters of a natural number, most significant first. -/
def natDigits (n : ℕ) : List Char :=
  if _h : n < 10 then [Char.ofNat (Char.toNat '0' + n)]
  else natDigits (n / 10) ++ [Char.ofNat (Char.toNat '0' + n % 10)]
  termination_by n
  decreasing_by exact Nat.div_lt_self (by omega) (by omega)

/-- Decimal rendering of an integer, with a leading minus sign when
negative. -/
def intChars (z : ℤ) : List Char :=
  if z < 0 then '-' :: natDigits z.natAbs else natDigits z.natAbs

/-! ### Brackets, pricing and the per-city scan (oracle layer)

Embeds the bracket data model, `priceBrackets` and `scanCity`.  Temperature
bounds live in `WithBot ℝ` / `WithTop ℝ` (the source uses `-Infinity` /
`Infinity` sentinels); times are milliseconds since epoch (ℤ).  The two
network fetches of `scanCity` and the per-bracket ask-price fetch are passed
in as an environment, `Except.error` standing for a thrown fetch error and a
`none` ask price for a failed/absent price (dropping that bracket). -/

/-- One tradeable bracket market, as built by the market-discovery fetch. -/
structure PolymarketBracket where
  label : String
  lo : WithBot ℝ
  hi : WithTop ℝ
  yesTokenId : String
  conditionId : String
  isTerminal : Bool
  acceptingOrders : Bool
  closeTimeUtc : ℤ

/-- A bracket augmented with ask price, fair value and edge. -/
structure PricedBracket extends PolymarketBracket where
  askPrice : ℝ
  fairValue : ℝ
  edge : ℝ

/-- A fetched forecast: daily high (°F) and fetch time. -/
structure WeatherForecast where
  forecastHighF : ℝ
  fetchedAt : ℤ

/-- The source's `priceBrackets`: look up each bracket's ask price, drop
brackets with no price, attach fair value and edge, and sort by edge
descending (`(a, b) => b.edge - a.edge`; JavaScript sort is stable). -/
noncomputable def priceBrackets (brackets : List PolymarketBracket)
    (forecastHighF sigmaF : ℝ) (ask : String → Option ℝ) : List PricedBracket :=
  (brackets.filterMap fun b =>
    (ask b.yesTokenId).map fun askPrice =>
      { toPolymarketBracket := b
        askPrice := askPrice
        fairValue := bracketFairValue b.lo b.hi forecastHighF sigmaF
        edge := bracketFairValue b.lo b.hi forecastHighF sigmaF - askPrice }).mergeSort
    (fun a b => decide (b.edge ≤ a.edge))

/-- Scan result for one city, mirroring `CityOpportunity`. -/
structure CityOpportunity where
  city : String
  forecastHighF : ℝ
  sigmaF : ℝ
  targetBracket : Option PricedBracket
  allBrackets : List PricedBracket
  skippedReason : Option String
  scannedAt : ℤ

/-- Environment of one `scanCity` call: results of the forecast fetch and
market-discovery fetch, the per-token ask-price lookup, and the clock. -/
structure ScanEnv where
  forecast : Except String WeatherForecast
  rawBrackets : Except String (List PolymarketBracket)
  ask : String → Option ℝ
  now : ℤ

/-- Qualification predicate of step 5 of `scanCity`:
`b.edge >= minEdge && b.fairValue >= minFairValue`. -/
noncomputable def qualifies (minEdge minFairValue : ℝ) (b : PricedBracket) : Bool :=
  decide (minEdge ≤ b.edge) && decide (minFairValue ≤ b.fairValue)

/-- Synchronous core of `scanCity`, after the forecast and bracket fetches
succeeded: empty-market guard, 30-minute close-time buffer, sigma
derivation, pricing of non-terminal order-accepting brackets, and selection
of the first qualifying bracket of the edge-sorted list. -/
noncomputable def scanCityCore (city : String) (forecast : WeatherForecast)
    (rawBrackets : List PolymarketBracket) (ask : String → Option ℝ) (now : ℤ)
    (minEdge minFairValue : ℝ) : CityOpportunity :=
  if rawBrackets.isEmpty then
    { city := city, forecastHighF := forecast.forecastHighF, sigmaF := 0,
      targetBracket := none, allBrackets := [],
      skippedReason := some "no_market", scannedAt := now }
  else
    let closeTimeMs := ((rawBrackets.map (fun b => b.closeTimeUtc)).min?).getD 0
    let msUntilClose := closeTimeMs - now
    if msUntilClose < 30 * 60 * 1000 then
      { city := city, forecastHighF := forecast.forecastHighF, sigmaF := 0,
        targetBracket := none, allBrackets := [],
        skippedReason := some "market_closing_soon", scannedAt := now }
    else
      let hoursUntilClose : ℝ := (msUntilClose : ℝ) / 3600000
      let sigmaF := forecastSigmaF hoursUntilClose
      let tradeable := rawBrackets.filter fun b => !b.isTerminal && b.acceptingOrders
      let priced := priceBrackets tradeable forecast.forecastHighF sigmaF ask
      let best := priced.find? (qualifies minEdge minFairValue)
      { city := city, forecastHighF := forecast.forecastHighF, sigmaF := sigmaF,
        targetBracket := best, allBrackets := priced,
        skippedReason := if best.isSome then none else some "no_edge",
        scannedAt := now }

/-- Result of `scanCityCore` on the path where the market is non-empty and
not closing soon (steps 4–6 of the scan); named so proofs can reduce the
branch structure once and evaluate this tail separately. -/
noncomputable def scanCityFar (city : String) (forecast : WeatherForecast)
    (rawBrackets : List PolymarketBracket) (ask : String → Option ℝ) (now : ℤ)
    (minEdge minFairValue : ℝ) : CityOpportunity :=
  let msUntilClose := ((rawBrackets.map (fun b => b.closeTimeUtc)).min?).getD 0 - now
  let sigmaF := forecastSigmaF ((msUntilClose : ℝ) / 3600000)
  let priced := priceBrackets (rawBrackets.filter fun b => !b.isTerminal && b.acceptingOrders)
    forecast.forecastHighF sigmaF ask
  let best := priced.find? (qualifies minEdge minFairValue)
  { city := city, forecastHighF := forecast.forecastHighF, sigmaF := sigmaF,
    targetBracket := best, allBrackets := priced,
    skippedReason := if best.isSome then none else some "no_edge",
    scannedAt := now }

/-- The source's `scanCity`: await the forecast, await the bracket list
(each rethrowing a fetch error), then run the synchronous core. -/
noncomputable def scanCity (city : String) (env : ScanEnv)
    (minEdge minFairValue : ℝ) : Except String CityOpportunity :=
  match env.forecast with
  | .error e => .error e
  | .ok forecast =>
    match env.rawBrackets with
    | .error e => .error e
    | .ok rawBrackets =>
      .ok (scanCityCore city forecast rawBrackets env.ask env.now minEdge minFairValue)

/-! ### CLOB client: order amounts and response handling

Embeds the amount arithmetic and response handling of `placeOrder`.  The
amount computation runs under JavaScript number semantics: division by zero
produces an infinity (or NaN for 0/0), `Math.floor` preserves infinities and
NaN, and `BigInt(...)` of a non-integral value throws — modelled by `Option`.
The EIP-712 signing step and the HTTP POST are effects; the model records
whether each was reached, and takes the server's response as input. -/

/-- A JavaScript number: a finite rational, an infinity, or NaN. -/
inductive JSNum where
  | num (q : ℚ)
  | posInf
  | negInf
  | nan
deriving DecidableEq

/-- JavaScript division of finite numbers: `x / 0` is `Infinity`,
`-Infinity` or `NaN` according to the sign of `x`. -/
def jsDiv (x y : ℚ) : JSNum :=
  if y = 0 then
    if 0 < x then .posInf else if x < 0 then .negInf else .nan
  else .num (x / y)

/-- JavaScript multiplication of a number by a finite positive constant
(the `1e6` scaling): infinities and NaN are preserved. -/
def jsMulPos (a : JSNum) (c : ℚ) : JSNum :=
  match a with
  | .num x => .num (x * c)
  | .posInf => .posInf
  | .negInf => .negInf
  | .nan => .nan

/-- JavaScript `Math.floor`: floors a finite number, preserves infinities
and NaN. -/
def jsFloor : JSNum → JSNum
  | .num x => .num (⌊x⌋ : ℚ)
  | .posInf => .posInf
  | .negInf => .negInf
  | .nan => .nan

/-- JavaScript `BigInt(...)` conversion: defined exactly for integral finite
numbers, throws (`none`) on fractional values, infinities and NaN. -/
def jsToBigInt : JSNum → Option ℤ
  | .num x => if x.den = 1 then some x.num else none
  | .posInf => none
  | .negInf => none
  | .nan => none

/-- Amount math of `placeOrder`: `tokensToReceive = sizeUsdc / limitPrice`,
`makerAmount = BigInt(Math.floor(sizeUsdc * 1e6))`,
`takerAmount = BigInt(Math.floor(tokensToReceive * 1e6))`. -/
def orderAmounts (limitPrice sizeUsdc : ℚ) : JSNum × Option ℤ × Option ℤ :=
  let tokensToReceive := jsDiv sizeUsdc limitPrice
  let makerAmount := jsToBigInt (jsFloor (jsMulPos (.num sizeUsdc) 1000000))
  let takerAmount := jsToBigInt (jsFloor (jsMulPos tokensToReceive 1000000))
  (tokensToReceive, makerAmount, takerAmount)

/-- The CLOB server's response to the order POST, as `placeOrder` reads it:
HTTP success flag, body text (used in the failure message), and the three
optional JSON fields `orderID`, `status`, `errorMsg`. -/
structure ClobOrderResponse where
  ok : Bool
  text : String
  orderID : Option String
  status : Option String
  errorMsg : Option String

/-- Result record of a successful `placeOrder`. -/
structure PlacedOrder where
  orderId : String
  status : String
  tokenId : String
  price : ℚ
  sizeUsdc : ℚ
deriving DecidableEq

/-- The source's `placeOrder` for a given server response: compute the
amounts (BigInt conversion may throw), then sign the order struct, POST it,
and interpret the response (`!res.ok` throws with the body text; an
`errorMsg` field throws with the server's message; otherwise the order id
and status default to the string "unknown").  The two booleans record
whether the signing step and the HTTP request were reached. -/
def placeOrderClob (tokenId : String) (limitPrice sizeUsdc : ℚ)
    (resp : ClobOrderResponse) : Except String PlacedOrder × Bool × Bool :=
  match orderAmounts limitPrice sizeUsdc with
  | (_, some _, some _) =>
    if resp.ok = false then
      (.error (String.append "CLOB order failed: " resp.text), true, true)
    else
      match resp.errorMsg with
      | some m => (.error (String.append "CLOB order rejected: " m), true, true)
      | none =>
        (.ok { orderId := resp.orderID.getD "unknown",
               status := resp.status.getD "unknown",
               tokenId := tokenId, price := limitPrice, sizeUsdc := sizeUsdc },
         true, true)
  | _ => (.error "RangeError: Cannot convert to a BigInt", false, false)

/-! ### Strategy tick (Polymarket weather arbitrage)

Embeds `runPolymarketWeatherArbTick`.  All network effects (wallet load,
open orders, USDC balance, per-city scans, order placement) enter through an
environment; `Except.error` stands for a thrown error.  The tick returns the
Readings it reports through `onReading` together with the list of
`placeOrder` invocations it performed. -/

/-- Configuration of the Polymarket weather strategy. -/
structure PolymarketWeatherConfig where
  walletName : String
  cities : List String
  tradeAmountUsdc : ℝ
  maxPositionUsdc : ℝ
  minEdge : ℝ
  minFairValue : ℝ
  intervalSeconds : ℕ
  dryRun : Bool

/-- Per-city, per-tick outcome record. -/
structure PolymarketWeatherReading where
  city : String
  forecastHighF : ℝ
  sigmaF : ℝ
  targetBracket : Option String
  bestEdge : Option ℝ
  orderId : Option String
  skippedReason : Option String
  scannedAt : ℤ

/-- A loaded EVM wallet (only its address matters to the tick). -/
structure EvmWallet where
  address : String

/-- One open order as returned by `getOpenOrders`. -/
structure OpenOrder where
  id : String
  asset_id : String

/-- One invocation of the Order-Book Client's `placeOrder`
(token id, limit price, size in USDC). -/
structure OrderCall where
  tokenId : String
  price : ℝ
  sizeUsdc : ℝ

/-- Result of an order placement as seen by the tick. -/
structure TickPlacedOrder where
  orderId : String
  status : String

/-- Environment of one tick: wallet load result, open orders and USDC
balance (their fetches fall back to `[]` / `0` on failure in the source, so
they enter as plain values), the per-city scan results, the order-placement
oracle, and the clock. -/
structure TickEnv where
  wallet : Except String EvmWallet
  openOrders : List OpenOrder
  usdcBalance : ℝ
  scan : String → Except String CityOpportunity
  placeOrder : String → ℝ → ℝ → Except String TickPlacedOrder
  now : ℤ

/-- Body of the per-city loop of `runPolymarketWeatherArbTick`: build the
Reading, skip on scan error / scan skip reason / missing target bracket (a
thrown dereference, caught as "error") / existing position / dry run /
insufficient balance, otherwise place an order sized to
`min(tradeAmountUsdc, maxPositionUsdc)` at the observed ask price.  Returns
the Reading pushed for this city and the `placeOrder` calls made. -/
noncomputable def processCity (cfg : PolymarketWeatherConfig) (env : TickEnv)
    (positioned : List String) (usdcBalance : ℝ) (city : String) :
    PolymarketWeatherReading × List OrderCall :=
  let base : PolymarketWeatherReading :=
    { city := city, forecastHighF := 0, sigmaF := 0, targetBracket := none,
      bestEdge := none, orderId := none, skippedReason := none, scannedAt := env.now }
  match env.scan city with
  | .error _ => ({ base with skippedReason := some "error" }, [])
  | .ok result =>
    let r := { base with
      forecastHighF := result.forecastHighF
      sigmaF := result.sigmaF
      targetBracket := result.targetBracket.map fun b => b.label
      bestEdge := result.targetBracket.map fun b => b.edge }
    match result.skippedReason with
    | some reason => ({ r with skippedReason := some reason }, [])
    | none =>
      match result.targetBracket with
      | none => ({ r with skippedReason := some "error" }, [])
      | some best =>
        if best.yesTokenId ∈ positioned then
          ({ r with skippedReason := some "already_positioned" }, [])
        else
          let tradeSize := min cfg.tradeAmountUsdc cfg.maxPositionUsdc
          if cfg.dryRun then (r, [])
          else if usdcBalance < tradeSize then
            ({ r with skippedReason := some "insufficient_usdc" }, [])
          else
            match env.placeOrder best.yesTokenId best.askPrice tradeSize with
            | .ok order =>
              ({ r with orderId := some order.orderId },
               [{ tokenId := best.yesTokenId, price := best.askPrice, sizeUsdc := tradeSize }])
            | .error _ =>
              ({ r with skippedReason := some "error" },
               [{ tokenId := best.yesTokenId, price := best.askPrice, sizeUsdc := tradeSize }])

/-- The source's `runPolymarketWeatherArbTick`: load the wallet unless in
dry-run mode (a load failure aborts the tick with no Readings), fetch open
positions and the USDC balance once, then process every configured city.
Returns the reported Readings and all `placeOrder` invocations. -/
noncomputable def runPolymarketWeatherArbTick (cfg : PolymarketWeatherConfig)
    (env : TickEnv) : List PolymarketWeatherReading × List OrderCall :=
  match (if cfg.dryRun then Except.ok none else env.wallet.map some) with
  | .error _ => ([], [])
  | .ok walletOpt =>
    let openOrders := if walletOpt.isSome then env.openOrders else []
    let positioned := openOrders.map fun o => o.asset_id
    let usdcBalance := if walletOpt.isSome then env.usdcBalance else 0
    let results := cfg.cities.map (processCity cfg env positioned usdcBalance)
    (results.map fun p => p.1, (results.map fun p => p.2).flatten)

/-! ### Strategy manager: status IPC and daemon lifecycle

Embeds the two strategy-manager variants of the repository (the NOAA/Kalshi
weather-arb generation): the one under `src/strategyManager.ts` and the
standalone variant with the explicit dead-daemon-cleanup source tag.  The
filesystem (status file and pid file) is explicit state; file content is
`Option (Option _)` — the outer level is existence, the inner level is
whether the content parses.  Process liveness (`process.kill(pid, 0)`) is an
oracle `ℕ → Bool`.  `setInterval` timers are modelled by the runtime's table
of armed timers: a list of timer ids plus a fresh-id counter;
`clearInterval` removes an id from the table. -/

/-- The NOAA-era weather-arb configuration (`WeatherArbConfig` in types.ts). -/
structure WeatherArbConfig where
  walletName : String
  gridpointOffice : String
  gridX : ℤ
  gridY : ℤ
  tempThresholdF : ℝ
  kalshiSeriesTicker : String
  tradeAmountUsdc : ℝ
  minConfidence : ℝ
  maxMarketOdds : ℝ
  intervalSeconds : ℕ
  dryRun : Bool

/-- A NOAA forecast reading (only the fields the status projection uses). -/
structure NoaaForecast where
  forecastHighF : ℝ
  periodName : String
  shortForecast : String
  isDaytime : Bool
  fetchedAt : ℤ

/-- The NOAA-era per-tick reading (`WeatherArbReading` in types.ts). -/
structure WeatherArbReading where
  noaaForecast : NoaaForecast
  confidence : ℝ
  kalshiImpliedOdds : ℝ
  edge : ℝ
  hasEdge : Bool
  thresholdBracketTicker : Option String
  resolvedYesMint : Option String
  fetchedAt : ℤ

/-- Rendering of a millisecond timestamp as an ISO string.  The exact
format is irrelevant to every claim; only that it is some string derived
from the timestamp. -/
def toISOString (ms : ℤ) : String := toString ms

/-- The pumpfun half of `StrategyStatus`. -/
structure PumpfunStatus where
  running : Bool
  lastGraduations : ℕ
  lastCheckAt : Option String
deriving DecidableEq

/-- The weather-arb half of `StrategyStatus`. -/
structure WeatherArbStatus where
  running : Bool
  lastNoaaTemp : Option ℝ
  lastMarketOdds : Option ℝ
  lastConfidence : Option ℝ
  lastCheckAt : Option String
  city : Option String

/-- The shared `StrategyStatus` shape; `source` and `stale` model the
optional `_source` and `_stale` fields. -/
structure StrategyStatus where
  pumpfun : PumpfunStatus
  weather_arb : WeatherArbStatus
  source : Option String
  stale : Option Bool

/-- The shared filesystem state: the scanner-status file and the pid file.
Outer `Option`: the file exists; inner `Option`: its content parses. -/
structure ManagerFS where
  statusFile : Option (Option StrategyStatus)
  pidFile : Option (Option ℕ)

/-- The daemon-side in-memory state common to both manager variants:
interval handle, config, last reading and the owner flag. -/
structure DaemonRam where
  intervalId : Option ℕ
  config : Option WeatherArbConfig
  lastReading : Option WeatherArbReading
  isOwnerProcess : Bool

/-- Both variants' `isDaemonRunning`: the pid file must exist, parse to a
pid, and that pid must be alive. -/
def isDaemonRunning (fs : ManagerFS) (alive : ℕ → Bool) : Bool :=
  match fs.pidFile with
  | some (some pid) => alive pid
  | _ => false

namespace Part005

/-- The standalone variant's `buildLiveStatus`: status derived from daemon
RAM (`running` is non-nullity of the interval handle). -/
def buildLiveStatus (st : DaemonRam) : StrategyStatus :=
  { pumpfun := { running := false, lastGraduations := 0, lastCheckAt := none }
    weather_arb :=
      { running := st.intervalId.isSome
        lastNoaaTemp := st.lastReading.map fun r => r.noaaForecast.forecastHighF
        lastMarketOdds := st.lastReading.map fun r => r.kalshiImpliedOdds
        lastConfidence := st.lastReading.map fun r => r.confidence
        lastCheckAt := st.lastReading.map fun r => toISOString r.fetchedAt
        city := st.config.map fun c => c.gridpointOffice }
    source := none, stale := none }

/-- The standalone variant's `getStatus`: the owner answers from RAM;
otherwise read the status file, and when it claims `running` while the
referenced daemon pid is absent, unparsable or dead, delete both files and
return a synthesized stopped status tagged `dead_daemon_cleanup`.  An
unparsable or absent status file yields the default status.  `ageMs` is the
status-file age used for the 10-minute staleness flag. -/
def getStatus (st : DaemonRam) (fs : ManagerFS) (alive : ℕ → Bool)
    (ageMs : ℤ) (forceLive : Bool) : StrategyStatus × ManagerFS :=
  if forceLive || st.isOwnerProcess then
    ({ buildLiveStatus st with source := some "live" }, fs)
  else
    match fs.statusFile with
    | some (some fileData) =>
      if fileData.weather_arb.running && !(isDaemonRunning fs alive) then
        ({ buildLiveStatus st with source := some "dead_daemon_cleanup" },
         { statusFile := none, pidFile := none })
      else
        ({ fileData with
            stale := some (decide (10 * 60 * 1000 < ageMs))
            source := some "file" }, fs)
    | some none => ({ buildLiveStatus st with source := some "default" }, fs)
    | none => ({ buildLiveStatus st with source := some "default" }, fs)

end Part005

namespace SrcMgr

/-- The `src/strategyManager.ts` variant's `getLiveStatus` (it carries
`_source: "live"` directly). -/
def getLiveStatus (st : DaemonRam) : StrategyStatus :=
  { pumpfun := { running := false, lastGraduations := 0, lastCheckAt := none }
    weather_arb :=
      { running := st.intervalId.isSome
        city := st.config.map fun c => c.gridpointOffice
        lastNoaaTemp := st.lastReading.map fun r => r.noaaForecast.forecastHighF
        lastMarketOdds := st.lastReading.map fun r => r.kalshiImpliedOdds
        lastConfidence := st.lastReading.map fun r => r.confidence
        lastCheckAt := st.lastReading.map fun r => toISOString r.fetchedAt }
    source := some "live", stale := none }

/-- The all-nulls weather-arb status used by this variant's synthesized
returns. -/
def emptyWeatherArb : WeatherArbStatus :=
  { running := false, city := none, lastNoaaTemp := none, lastMarketOdds := none,
    lastConfidence := none, lastCheckAt := none }

/-- The `src/strategyManager.ts` variant's `getStatus`: the owner answers
from RAM; an observer reads the status file and, when it claims `running`
while the daemon pid is dead, deletes both files and returns a synthesized
stopped status with `_source: "file"` and `_stale: true`; an unparsable or
absent file yields the default status. -/
def getStatus (st : DaemonRam) (fs : ManagerFS) (alive : ℕ → Bool) :
    StrategyStatus × ManagerFS :=
  if st.isOwnerProcess then (getLiveStatus st, fs)
  else
    match fs.statusFile with
    | some (some fileData) =>
      if fileData.weather_arb.running && !(isDaemonRunning fs alive) then
        ({ pumpfun := { running := false, lastGraduations := 0, lastCheckAt := none },
           weather_arb := emptyWeatherArb, source := some "file", stale := some true },
         { statusFile := none, pidFile := none })
      else
        ({ fileData with source := some "file" }, fs)
    | some none =>
      ({ pumpfun := { running := false, lastGraduations := 0, lastCheckAt := none },
         weather_arb := emptyWeatherArb, source := some "default", stale := none }, fs)
    | none =>
      ({ pumpfun := { running := false, lastGraduations := 0, lastCheckAt := none },
         weather_arb := emptyWeatherArb, source := some "default", stale := none }, fs)

/-- Full state of the `src/strategyManager.ts` manager in its process: the
daemon RAM, the filesystem, and the runtime's table of armed interval
timers (`activeTimers`) with a fresh-id counter. -/
structure MgrState where
  ram : DaemonRam
  fs : ManagerFS
  activeTimers : List ℕ
  nextTimerId : ℕ

/-- The variant's `startWeatherArb` for process id `pid`: mark this process
as owner, write the pid file, store the config, persist the current live
status (computed before the new timer is armed), then arm a fresh interval
timer — without clearing any previously armed one — and store its handle. -/
def startWeatherArb (cfg : WeatherArbConfig) (pid : ℕ) (s : MgrState) : MgrState :=
  let ram1 := { s.ram with isOwnerProcess := true, config := some cfg }
  let fs1 := { s.fs with pidFile := some (some pid) }
  let fs2 := { fs1 with statusFile := some (some (getLiveStatus ram1)) }
  let t := s.nextTimerId
  { ram := { ram1 with intervalId := some t }
    fs := fs2
    activeTimers := t :: s.activeTimers
    nextTimerId := t + 1 }

/-- The variant's `stopWeatherArb`: when an interval handle is held, clear
that timer, null the handle and persist the (now not-running) status;
otherwise do nothing. -/
def stopWeatherArb (s : MgrState) : MgrState :=
  match s.ram.intervalId with
  | none => s
  | some t =>
    let ram1 := { s.ram with intervalId := none }
    { ram := ram1
      fs := { s.fs with statusFile := some (some (getLiveStatus ram1)) }
      activeTimers := s.activeTimers.erase t
      nextTimerId := s.nextTimerId }

end SrcMgr

/-- A fresh manager process state: no timer armed, not the owner, empty
filesystem. -/
def mgr0 : SrcMgr.MgrState :=
  { ram := { intervalId := none, config := none, lastReading := none,
             isOwnerProcess := false },
    fs := { statusFile := none, pidFile := none },
    activeTimers := [], nextTimerId := 0 }

/-- A concrete weather-arb configuration for lifecycle scenarios. -/
noncomputable def cfgC6 : WeatherArbConfig :=
  { walletName := "w", gridpointOffice := "OKX", gridX := 33, gridY := 35,
    tempThresholdF := 50, kalshiSeriesTicker := "KXHIGHNY", tradeAmountUsdc := 10,
    minConfidence := 0.9, maxMarketOdds := 0.4, intervalSeconds := 120, dryRun := true }

/-- A status-file content claiming the scanner is running (as a crashed
owner would leave behind). -/
def statusRunning : StrategyStatus :=
  { pumpfun := { running := false, lastGraduations := 0, lastCheckAt := none },
    weather_arb := { running := true, lastNoaaTemp := none, lastMarketOdds := none,
                     lastConfidence := none, lastCheckAt := none, city := some "OKX" },
    source := none, stale := none }

/-! ### Concrete scenario of the spec's edge example

Forecast 45°F, σ = 2, bracket [44, 46] at ask price 0.30, market two hours
from close, thresholds minEdge = 0.20 and minFairValue = 0.40. -/

noncomputable section EdgeScenarioDefs

/-- The bracket [44, 46] of the edge scenario. -/
def bC7 : PolymarketBracket :=
  { label := "44-46°F", lo := ((44:ℝ) : WithBot ℝ), hi := ((46:ℝ) : WithTop ℝ),
    yesTokenId := "tok-44-46", conditionId := "cond-44-46", isTerminal := false,
    acceptingOrders := true, closeTimeUtc := 7200000 }

/-- The priced form of the edge-scenario bracket at ask 0.30 and μ = 45,
σ = 2. -/
def pbC7 : PricedBracket :=
  { toPolymarketBracket := bC7, askPrice := 0.30,
    fairValue := bracketFairValue ((44:ℝ) : WithBot ℝ) ((46:ℝ) : WithTop ℝ) 45 2,
    edge := bracketFairValue ((44:ℝ) : WithBot ℝ) ((46:ℝ) : WithTop ℝ) 45 2 - 0.30 }

/-- Scan environment of the edge scenario: forecast 45°F, the single bracket
above closing in two hours, ask price 0.30. -/
def envC7 : ScanEnv :=
  { forecast := .ok { forecastHighF := 45, fetchedAt := 0 },
    rawBrackets := .ok [bC7], ask := fun _ => some 0.30, now := 0 }

/-- The scan result of the edge scenario. -/
def oppC7 : CityOpportunity :=
  { city := "nyc", forecastHighF := 45, sigmaF := 2, targetBracket := some pbC7,
    allBrackets := [pbC7], skippedReason := none, scannedAt := 0 }

/-- Live-mode tick configuration of the edge scenario. -/
def cfgC7 : PolymarketWeatherConfig :=
  { walletName := "w", cities := ["nyc"], tradeAmountUsdc := 5, maxPositionUsdc := 10,
    minEdge := 0.2, minFairValue := 0.4, intervalSeconds := 120, dryRun := false }

/-- Tick environment of the edge scenario: funded wallet, no open positions,
the scan result above, an accepting order endpoint. -/
def tickEnvC7 : TickEnv :=
  { wallet := .ok { address := "0xW" }, openOrders := [], usdcBalance := 100,
    scan := fun _ => .ok oppC7,
    placeOrder := fun _ _ _ => .ok { orderId := "oid1", status := "live" }, now := 0 }

/-- Tick environment of the insufficient-balance scenario: as in the edge
scenario but with only 3 USDC available against a 5 USDC trade size. -/
def envC5 : TickEnv :=
  { wallet := .ok { address := "0xW" }, openOrders := [], usdcBalance := 3,
    scan := fun _ => .ok oppC7,
    placeOrder := fun _ _ _ => .ok { orderId := "oid1", status := "live" }, now := 0 }

end EdgeScenarioDefs

/-! ## Lemmas and theorems -/

/-! ### Analytic properties of the erf approximation -/

theorem erfPoly_hasDerivAt (t : ℝ) : HasDerivAt erfPoly (erfPolyDeriv t) t := by
  have h := ((hasDerivAt_pow 1 t).const_mul erfC1).add
    (((hasDerivAt_pow 2 t).const_mul erfC2).add
      (((hasDerivAt_pow 3 t).const_mul erfC3).add
        (((hasDerivAt_pow 4 t).const_mul erfC4).add
          ((hasDerivAt_pow 5 t).const_mul erfC5))))
  have hfun : erfPoly = fun x : ℝ =>
      erfC1 * x ^ 1 + (erfC2 * x ^ 2 + (erfC3 * x ^ 3 + (erfC4 * x ^ 4 + erfC5 * x ^ 5))) := by
    funext x
    simp only [erfPoly]
    ring
  rw [hfun]
  convert h using 1
  simp only [erfPolyDeriv]
  push_cast
  ring

theorem erfPolyDeriv_pos (t : ℝ) : 0 < erfPolyDeriv t := by
  simp only [erfPolyDeriv, erfC1, erfC2, erfC3, erfC4, erfC5]
  nlinarith [sq_nonneg (t ^ 2 - 0.5477 * t), sq_nonneg (t - 0.1065), sq_nonneg t,
    sq_nonneg (t - 1), sq_nonneg (t ^ 2 - t), sq_nonneg (t + 1)]

theorem erfPoly_strictMono : StrictMono erfPoly :=
  strictMono_of_deriv_pos fun t => by
    rw [(erfPoly_hasDerivAt t).deriv]
    exact erfPolyDeriv_pos t

theorem erfPoly_zero : erfPoly 0 = 0 := by
  simp [erfPoly]

theorem erfPoly_nonneg {t : ℝ} (h : 0 ≤ t) : 0 ≤ erfPoly t := by
  have := erfPoly_strictMono.monotone h
  rwa [erfPoly_zero] at this

theorem erfPoly_lt_one {t : ℝ} (h : t ≤ 1) : erfPoly t < 1 := by
  have h1 : erfPoly t ≤ erfPoly 1 := erfPoly_strictMono.monotone h
  have h2 : erfPoly 1 < 1 := by
    simp only [erfPoly, erfC1, erfC2, erfC3, erfC4, erfC5]
    norm_num
  linarith

theorem one_add_erfA_mul_pos {x : ℝ} (hx : 0 ≤ x) : 0 < 1 + erfA * x := by
  simp only [erfA]
  nlinarith

theorem tval_pos {x : ℝ} (hx : 0 ≤ x) : 0 < 1 / (1 + erfA * x) :=
  one_div_pos.mpr (one_add_erfA_mul_pos hx)

theorem tval_le_one {x : ℝ} (hx : 0 ≤ x) : 1 / (1 + erfA * x) ≤ 1 := by
  rw [div_le_one (one_add_erfA_mul_pos hx)]
  simp only [erfA]
  nlinarith

theorem exp_neg_sq_le_one (x : ℝ) : Real.exp (-(x * x)) ≤ 1 := by
  have h : Real.exp (-(x * x)) ≤ Real.exp 0 := Real.exp_le_exp.mpr (by nlinarith [mul_self_nonneg x])
  rwa [Real.exp_zero] at h

theorem erfAbsBody_nonneg {x : ℝ} (hx : 0 ≤ x) : 0 ≤ erfAbsBody x := by
  have hQ1 : erfPoly (1 / (1 + erfA * x)) ≤ 1 := (erfPoly_lt_one (tval_le_one hx)).le
  have hQ0 : 0 ≤ erfPoly (1 / (1 + erfA * x)) := erfPoly_nonneg (tval_pos hx).le
  have hE1 : Real.exp (-(x * x)) ≤ 1 := exp_neg_sq_le_one x
  have hE0 : 0 ≤ Real.exp (-(x * x)) := (Real.exp_pos _).le
  have : erfPoly (1 / (1 + erfA * x)) * Real.exp (-(x * x)) ≤ 1 := by nlinarith
  simp only [erfAbsBody]
  linarith

theorem erfAbsBody_le_one {x : ℝ} (hx : 0 ≤ x) : erfAbsBody x ≤ 1 := by
  have hQ0 : 0 ≤ erfPoly (1 / (1 + erfA * x)) := erfPoly_nonneg (tval_pos hx).le
  have hE0 : 0 ≤ Real.exp (-(x * x)) := (Real.exp_pos _).le
  have : 0 ≤ erfPoly (1 / (1 + erfA * x)) * Real.exp (-(x * x)) := mul_nonneg hQ0 hE0
  simp only [erfAbsBody]
  linarith

theorem erfAbsBody_mono {x₁ x₂ : ℝ} (h0 : 0 ≤ x₁) (h12 : x₁ ≤ x₂) :
    erfAbsBody x₁ ≤ erfAbsBody x₂ := by
  have h0₂ : 0 ≤ x₂ := le_trans h0 h12
  have ht : 1 / (1 + erfA * x₂) ≤ 1 / (1 + erfA * x₁) := by
    apply one_div_le_one_div_of_le (one_add_erfA_mul_pos h0)
    simp only [erfA]
    nlinarith
  have hQ : erfPoly (1 / (1 + erfA * x₂)) ≤ erfPoly (1 / (1 + erfA * x₁)) :=
    erfPoly_strictMono.monotone ht
  have hQ0 : 0 ≤ erfPoly (1 / (1 + erfA * x₂)) := erfPoly_nonneg (tval_pos h0₂).le
  have hE : Real.exp (-(x₂ * x₂)) ≤ Real.exp (-(x₁ * x₁)) :=
    Real.exp_le_exp.mpr (by nlinarith)
  have hE0 : 0 ≤ Real.exp (-(x₂ * x₂)) := (Real.exp_pos _).le
  have hprod : erfPoly (1 / (1 + erfA * x₂)) * Real.exp (-(x₂ * x₂)) ≤
      erfPoly (1 / (1 + erfA * x₁)) * Real.exp (-(x₁ * x₁)) :=
    mul_le_mul hQ hE hE0 (le_trans hQ0 hQ)
  simp only [erfAbsBody]
  linarith

theorem erf_of_nonneg {x : ℝ} (h : 0 ≤ x) : erf x = erfAbsBody x :=
  if_neg (not_lt.mpr h)

theorem erf_of_neg {x : ℝ} (h : x < 0) : erf x = -erfAbsBody (-x) :=
  if_pos h

theorem erf_mono : Monotone erf := by
  intro x₁ x₂ h
  by_cases hx1 : x₁ < 0
  · by_cases hx2 : x₂ < 0
    · rw [erf_of_neg hx1, erf_of_neg hx2]
      have : erfAbsBody (-x₂) ≤ erfAbsBody (-x₁) :=
        erfAbsBody_mono (by linarith) (by linarith)
      linarith
    · push_neg at hx2
      rw [erf_of_neg hx1, erf_of_nonneg hx2]
      have h1 : 0 ≤ erfAbsBody (-x₁) := erfAbsBody_nonneg (by linarith)
      have h2 : 0 ≤ erfAbsBody x₂ := erfAbsBody_nonneg hx2
      linarith
  · push_neg at hx1
    have hx2 : 0 ≤ x₂ := le_trans hx1 h
    rw [erf_of_nonneg hx1, erf_of_nonneg hx2]
    exact erfAbsBody_mono hx1 h

theorem erf_le_one (x : ℝ) : erf x ≤ 1 := by
  by_cases hx : x < 0
  · rw [erf_of_neg hx]
    have : 0 ≤ erfAbsBody (-x) := erfAbsBody_nonneg (by linarith)
    linarith
  · push_neg at hx
    rw [erf_of_nonneg hx]
    exact erfAbsBody_le_one hx

theorem neg_one_le_erf (x : ℝ) : -1 ≤ erf x := by
  by_cases hx : x < 0
  · rw [erf_of_neg hx]
    have : erfAbsBody (-x) ≤ 1 := erfAbsBody_le_one (by linarith)
    linarith
  · push_neg at hx
    rw [erf_of_nonneg hx]
    have : 0 ≤ erfAbsBody x := erfAbsBody_nonneg hx
    linarith

theorem sqrt2_pos : 0 < Real.sqrt 2 :=
  Real.sqrt_pos.mpr (by norm_num)

theorem normalCDF_mono {mu sigma : ℝ} (hσ : 0 < sigma) {x₁ x₂ : ℝ} (h : x₁ ≤ x₂) :
    normalCDF x₁ mu sigma ≤ normalCDF x₂ mu sigma := by
  have hd : 0 < sigma * Real.sqrt 2 := mul_pos hσ sqrt2_pos
  have harg : (x₁ - mu) / (sigma * Real.sqrt 2) ≤ (x₂ - mu) / (sigma * Real.sqrt 2) :=
    (div_le_div_iff_of_pos_right hd).mpr (by linarith)
  have := erf_mono harg
  simp only [normalCDF]
  linarith

theorem normalCDF_nonneg (x mu sigma : ℝ) : 0 ≤ normalCDF x mu sigma := by
  have := neg_one_le_erf ((x - mu) / (sigma * Real.sqrt 2))
  simp only [normalCDF]
  linarith

theorem normalCDF_le_one (x mu sigma : ℝ) : normalCDF x mu sigma ≤ 1 := by
  have := erf_le_one ((x - mu) / (sigma * Real.sqrt 2))
  simp only [normalCDF]
  linarith

/-! ### Bracket fair value: bounds and monotonicity -/

theorem hiCDFterm_le_one (hi : WithTop ℝ) (mu sigma : ℝ) : hiCDFterm hi mu sigma ≤ 1 := by
  induction hi using WithTop.recTopCoe with
  | top => simp [hiCDFterm]
  | coe x => exact normalCDF_le_one (x + 0.5) mu sigma

theorem hiCDFterm_nonneg (hi : WithTop ℝ) (mu sigma : ℝ) : 0 ≤ hiCDFterm hi mu sigma := by
  induction hi using WithTop.recTopCoe with
  | top => simp [hiCDFterm]
  | coe x => exact normalCDF_nonneg (x + 0.5) mu sigma

theorem loCDFterm_nonneg (lo : WithBot ℝ) (mu sigma : ℝ) : 0 ≤ loCDFterm lo mu sigma := by
  induction lo using WithBot.recBotCoe with
  | bot => simp [loCDFterm]
  | coe x => exact normalCDF_nonneg (x - 0.5) mu sigma

theorem hiCDFterm_mono {mu sigma : ℝ} (hσ : 0 < sigma) {hi₁ hi₂ : WithTop ℝ}
    (h : hi₁ ≤ hi₂) : hiCDFterm hi₁ mu sigma ≤ hiCDFterm hi₂ mu sigma := by
  induction hi₂ using WithTop.recTopCoe with
  | top =>
    have := hiCDFterm_le_one hi₁ mu sigma
    simpa [hiCDFterm] using this
  | coe x₂ =>
    induction hi₁ using WithTop.recTopCoe with
    | top => exact absurd h (by simp)
    | coe x₁ =>
      have hx : x₁ ≤ x₂ := WithTop.coe_le_coe.mp h
      exact normalCDF_mono hσ (by linarith)

theorem loCDFterm_mono {mu sigma : ℝ} (hσ : 0 < sigma) {lo₁ lo₂ : WithBot ℝ}
    (h : lo₁ ≤ lo₂) : loCDFterm lo₁ mu sigma ≤ loCDFterm lo₂ mu sigma := by
  induction lo₁ using WithBot.recBotCoe with
  | bot =>
    have := loCDFterm_nonneg lo₂ mu sigma
    simpa [loCDFterm] using this
  | coe x₁ =>
    induction lo₂ using WithBot.recBotCoe with
    | bot => exact absurd h (by simp)
    | coe x₂ =>
      have hx : x₁ ≤ x₂ := WithBot.coe_le_coe.mp h
      exact normalCDF_mono hσ (by linarith)

theorem clamp01_mono {a b : ℝ} (h : a ≤ b) : max 0 (min 1 a) ≤ max 0 (min 1 b) :=
  max_le_max le_rfl (min_le_min le_rfl h)

theorem bracketFairValue_nonneg (lo : WithBot ℝ) (hi : WithTop ℝ) (mu sigma : ℝ) :
    0 ≤ bracketFairValue lo hi mu sigma :=
  le_max_left 0 _

theorem bracketFairValue_le_one (lo : WithBot ℝ) (hi : WithTop ℝ) (mu sigma : ℝ) :
    bracketFairValue lo hi mu sigma ≤ 1 := by
  simp only [bracketFairValue]
  apply max_le (by norm_num)
  exact min_le_left 1 _

theorem bracketFairValue_mono_hi {mu sigma : ℝ} (hσ : 0 < sigma) (lo : WithBot ℝ)
    {hi₁ hi₂ : WithTop ℝ} (h : hi₁ ≤ hi₂) :
    bracketFairValue lo hi₁ mu sigma ≤ bracketFairValue lo hi₂ mu sigma := by
  simp only [bracketFairValue]
  apply clamp01_mono
  have := @hiCDFterm_mono mu sigma hσ hi₁ hi₂ h
  linarith

theorem bracketFairValue_anti_lo {mu sigma : ℝ} (hσ : 0 < sigma) (hi : WithTop ℝ)
    {lo₁ lo₂ : WithBot ℝ} (h : lo₁ ≤ lo₂) :
    bracketFairValue lo₂ hi mu sigma ≤ bracketFairValue lo₁ hi mu sigma := by
  simp only [bracketFairValue]
  apply clamp01_mono
  have := @loCDFterm_mono mu sigma hσ lo₁ lo₂ h
  linarith

/-- C8: for every fixed μ and σ > 0, and for every bracket where lo = -∞ and
hi = +∞ do not hold simultaneously, bracketFairValue(lo, hi, μ, σ) lies in
[0, 1]; moreover bracketFairValue is monotonically non-decreasing in hi (for
fixed lo, μ, σ) and monotonically non-increasing in lo (for fixed hi, μ, σ).
(The [0,1] bounds in fact hold for all brackets, the clamp enforcing them.) -/
theorem bracketFairValue_bounds_monotone (mu sigma : ℝ) (hσ : 0 < sigma) :
    (∀ (lo : WithBot ℝ) (hi : WithTop ℝ), ¬(lo = ⊥ ∧ hi = ⊤) →
      0 ≤ bracketFairValue lo hi mu sigma ∧ bracketFairValue lo hi mu sigma ≤ 1)
    ∧ (∀ (lo : WithBot ℝ) (hi₁ hi₂ : WithTop ℝ), hi₁ ≤ hi₂ →
      bracketFairValue lo hi₁ mu sigma ≤ bracketFairValue lo hi₂ mu sigma)
    ∧ (∀ (hi : WithTop ℝ) (lo₁ lo₂ : WithBot ℝ), lo₁ ≤ lo₂ →
      bracketFairValue lo₂ hi mu sigma ≤ bracketFairValue lo₁ hi mu sigma) := by
  refine ⟨fun lo hi _ => ⟨bracketFairValue_nonneg lo hi mu sigma,
    bracketFairValue_le_one lo hi mu sigma⟩, ?_, ?_⟩
  · exact fun lo hi₁ hi₂ h => bracketFairValue_mono_hi hσ lo h
  · exact fun hi lo₁ lo₂ h => bracketFairValue_anti_lo hσ hi h

/-- Witness for C8 at μ = 45, σ = 2, brackets [44, 46], [44, 45] and
[45, 46]. -/
theorem bracketFairValue_bounds_monotone_witness :
    (0:ℝ) < 2
    ∧ (0 ≤ bracketFairValue ((44:ℝ) : WithBot ℝ) ((46:ℝ) : WithTop ℝ) 45 2
       ∧ bracketFairValue ((44:ℝ) : WithBot ℝ) ((46:ℝ) : WithTop ℝ) 45 2 ≤ 1)
    ∧ bracketFairValue ((44:ℝ) : WithBot ℝ) ((45:ℝ) : WithTop ℝ) 45 2 ≤
        bracketFairValue ((44:ℝ) : WithBot ℝ) ((46:ℝ) : WithTop ℝ) 45 2
    ∧ bracketFairValue ((45:ℝ) : WithBot ℝ) ((46:ℝ) : WithTop ℝ) 45 2 ≤
        bracketFairValue ((44:ℝ) : WithBot ℝ) ((46:ℝ) : WithTop ℝ) 45 2 :=
  ⟨by norm_num,
   (bracketFairValue_bounds_monotone 45 2 (by norm_num)).1 _ _ (by simp),
   (bracketFairValue_bounds_monotone 45 2 (by norm_num)).2.1 _ _ _
     (by exact_mod_cast (by norm_num : (45:ℝ) ≤ 46)),
   (bracketFairValue_bounds_monotone 45 2 (by norm_num)).2.2 _ _ _
     (by exact_mod_cast (by norm_num : (44:ℝ) ≤ 45))⟩

/-- C1: for every forecast mean μ, every σ > 0 and every bracket [lo, hi]
(lo possibly -∞, hi possibly +∞), the pricing model's
bracketFairValue(lo, hi, μ, σ) equals Φ((hi+0.5−μ)/(σ√2)) −
Φ((lo−0.5−μ)/(σ√2)) — with Φ the CDF the spec formula denotes, realised
through the program's error function as Φ(z) = 0.5·(1 + erf z), exactly as
the spec's standardisation by σ√2 indicates — where an unbounded end
collapses the corresponding CDF term (to 1 for hi = +∞, to 0 for lo = -∞)
and the result is clamped to [0, 1]. -/
theorem bracketFairValue_matches_spec_formula (mu sigma : ℝ) (_hσ : 0 < sigma)
    (lo : WithBot ℝ) (hi : WithTop ℝ) :
    bracketFairValue lo hi mu sigma = bracketFairValueSpec lo hi mu sigma := by
  induction lo using WithBot.recBotCoe with
  | bot =>
    induction hi using WithTop.recTopCoe with
    | top => simp [bracketFairValue, bracketFairValueSpec, hiCDFterm, loCDFterm]
    | coe x =>
      simp [bracketFairValue, bracketFairValueSpec, hiCDFterm, loCDFterm, normalCDF, specPhi]
  | coe y =>
    induction hi using WithTop.recTopCoe with
    | top =>
      simp [bracketFairValue, bracketFairValueSpec, hiCDFterm, loCDFterm, normalCDF, specPhi]
    | coe x =>
      simp [bracketFairValue, bracketFairValueSpec, hiCDFterm, loCDFterm, normalCDF, specPhi]

/-- Witness for C1 at μ = 45, σ = 2 on the bounded bracket [44, 46] and the
half-bounded bracket [44, ∞). -/
theorem bracketFairValue_matches_spec_formula_witness :
    (0:ℝ) < 2
    ∧ bracketFairValue ((44:ℝ) : WithBot ℝ) ((46:ℝ) : WithTop ℝ) 45 2 =
        bracketFairValueSpec ((44:ℝ) : WithBot ℝ) ((46:ℝ) : WithTop ℝ) 45 2
    ∧ bracketFairValue ((44:ℝ) : WithBot ℝ) ⊤ 45 2 =
        bracketFairValueSpec ((44:ℝ) : WithBot ℝ) ⊤ 45 2 :=
  ⟨by norm_num,
   bracketFairValue_matches_spec_formula 45 2 (by norm_num) _ _,
   bracketFairValue_matches_spec_formula 45 2 (by norm_num) _ _⟩

/-! ### Numeric evaluation of the edge scenario

The fair value of the bracket [44, 46] at μ = 45, σ = 2 reduces to
`erfAbsBody (1.5 / (2√2))`, which is bounded to (0.54, 0.5527) by rational
interval arithmetic over the erf polynomial and two-sided bounds on
`exp (9/32)`. -/

theorem sqrt2_lt : Real.sqrt 2 < 1.414214 := by
  have h : (1.414214:ℝ) = Real.sqrt (1.414214 ^ 2) := (Real.sqrt_sq (by norm_num)).symm
  rw [h]
  exact Real.sqrt_lt_sqrt (by norm_num) (by norm_num)

theorem lt_sqrt2 : 1.414213 < Real.sqrt 2 := by
  have h : (1.414213:ℝ) = Real.sqrt (1.414213 ^ 2) := (Real.sqrt_sq (by norm_num)).symm
  rw [h]
  exact Real.sqrt_lt_sqrt (by norm_num) (by norm_num)

theorem zC7_bounds : 0.53032 ≤ 1.5 / (2 * Real.sqrt 2)
    ∧ 1.5 / (2 * Real.sqrt 2) ≤ 0.53034 := by
  have h1 := sqrt2_lt
  have h2 := lt_sqrt2
  have hp : (0:ℝ) < 2 * Real.sqrt 2 := by nlinarith
  constructor
  · rw [le_div_iff₀ hp]
    nlinarith
  · rw [div_le_iff₀ hp]
    nlinarith

theorem zC7_sq : (1.5 / (2 * Real.sqrt 2)) * (1.5 / (2 * Real.sqrt 2)) = 9 / 32 := by
  have h : Real.sqrt 2 * Real.sqrt 2 = 2 := Real.mul_self_sqrt (by norm_num)
  have hne : Real.sqrt 2 ≠ 0 := ne_of_gt sqrt2_pos
  field_simp
  nlinarith [h]

theorem exp932_lb : (1.31:ℝ) ≤ Real.exp (9 / 32) := by
  have h4 : Real.exp (9 / 32) = Real.exp (9 / 128) ^ 4 := by
    rw [← Real.exp_nat_mul]
    norm_num
  have hlow : (137 / 128 : ℝ) ≤ Real.exp (9 / 128) := by
    have := Real.add_one_le_exp (9 / 128 : ℝ)
    linarith
  have hpow : ((137:ℝ) / 128) ^ 4 ≤ Real.exp (9 / 128) ^ 4 :=
    pow_le_pow_left₀ (by norm_num) hlow 4
  rw [h4]
  calc (1.31:ℝ) ≤ (137 / 128) ^ 4 := by norm_num
    _ ≤ Real.exp (9 / 128) ^ 4 := hpow

theorem exp932_ub : Real.exp (9 / 32) ≤ (1.339:ℝ) := by
  have h4 : Real.exp (9 / 32) = Real.exp (9 / 128) ^ 4 := by
    rw [← Real.exp_nat_mul]
    norm_num
  have hneg : (1:ℝ) - 9 / 128 ≤ Real.exp (-(9 / 128)) := by
    have := Real.add_one_le_exp (-(9 / 128) : ℝ)
    linarith
  have hhigh : Real.exp (9 / 128) ≤ (128 / 119 : ℝ) := by
    have hpos := Real.exp_pos (9 / 128 : ℝ)
    have hrw : Real.exp (-(9 / 128)) = 1 / Real.exp (9 / 128) := by
      rw [Real.exp_neg]
      exact inv_eq_one_div _
    rw [hrw] at hneg
    have hinv : (1 - 9 / 128 : ℝ) * Real.exp (9 / 128) ≤ 1 := by
      have h := mul_le_mul_of_nonneg_right hneg hpos.le
      rwa [one_div, inv_mul_cancel₀ (ne_of_gt hpos)] at h
    nlinarith [hinv]
  have hpow : Real.exp (9 / 128) ^ 4 ≤ ((128:ℝ) / 119) ^ 4 :=
    pow_le_pow_left₀ (Real.exp_pos _).le hhigh 4
  rw [h4]
  calc Real.exp (9 / 128) ^ 4 ≤ (128 / 119) ^ 4 := hpow
    _ ≤ (1.339:ℝ) := by norm_num

theorem expC7_bounds : 0.7468 ≤ Real.exp (-(9 / 32))
    ∧ Real.exp (-(9 / 32)) ≤ 0.7634 := by
  have hrw : Real.exp (-(9 / 32)) = 1 / Real.exp (9 / 32) := by
    rw [Real.exp_neg]
    exact inv_eq_one_div _
  have hpos := Real.exp_pos (9 / 32 : ℝ)
  have h1 := exp932_lb
  have h2 := exp932_ub
  rw [hrw]
  constructor
  · rw [le_div_iff₀ hpos]
    nlinarith
  · rw [div_le_iff₀ hpos]
    nlinarith

theorem tC7_bounds : 0.8519 ≤ 1 / (1 + erfA * (1.5 / (2 * Real.sqrt 2)))
    ∧ 1 / (1 + erfA * (1.5 / (2 * Real.sqrt 2))) ≤ 0.8521 := by
  have hz := zC7_bounds
  have haz_lb : 0.17372 ≤ erfA * (1.5 / (2 * Real.sqrt 2)) := by
    simp only [erfA]
    nlinarith [hz.1]
  have haz_ub : erfA * (1.5 / (2 * Real.sqrt 2)) ≤ 0.17374 := by
    simp only [erfA]
    nlinarith [hz.2]
  have hp : (0:ℝ) < 1 + erfA * (1.5 / (2 * Real.sqrt 2)) := by nlinarith
  constructor
  · rw [le_div_iff₀ hp]
    nlinarith
  · rw [div_le_iff₀ hp]
    nlinarith

theorem erfPolyC7_bounds : 0.599 ≤ erfPoly (1 / (1 + erfA * (1.5 / (2 * Real.sqrt 2))))
    ∧ erfPoly (1 / (1 + erfA * (1.5 / (2 * Real.sqrt 2)))) ≤ 0.602 := by
  have ht := tC7_bounds
  have h1 : erfPoly 0.8519 ≤ erfPoly (1 / (1 + erfA * (1.5 / (2 * Real.sqrt 2)))) :=
    erfPoly_strictMono.monotone ht.1
  have h2 : erfPoly (1 / (1 + erfA * (1.5 / (2 * Real.sqrt 2)))) ≤ erfPoly 0.8521 :=
    erfPoly_strictMono.monotone ht.2
  have e1 : (0.599:ℝ) ≤ erfPoly 0.8519 := by
    simp only [erfPoly, erfC1, erfC2, erfC3, erfC4, erfC5]
    norm_num
  have e2 : erfPoly 0.8521 ≤ (0.602:ℝ) := by
    simp only [erfPoly, erfC1, erfC2, erfC3, erfC4, erfC5]
    norm_num
  exact ⟨le_trans e1 h1, le_trans h2 e2⟩

theorem bodyC7_bounds : 0.54 ≤ erfAbsBody (1.5 / (2 * Real.sqrt 2))
    ∧ erfAbsBody (1.5 / (2 * Real.sqrt 2)) ≤ 0.5527 := by
  have hQ := erfPolyC7_bounds
  have hE := expC7_bounds
  have hE0 : (0:ℝ) ≤ Real.exp (-(9 / 32)) := (Real.exp_pos _).le
  have hprod_lb : (0.599:ℝ) * 0.7468 ≤
      erfPoly (1 / (1 + erfA * (1.5 / (2 * Real.sqrt 2)))) * Real.exp (-(9 / 32)) := by
    apply mul_le_mul hQ.1 hE.1 (by norm_num) (by linarith [hQ.1])
  have hprod_ub : erfPoly (1 / (1 + erfA * (1.5 / (2 * Real.sqrt 2)))) *
      Real.exp (-(9 / 32)) ≤ (0.602:ℝ) * 0.7634 := by
    apply mul_le_mul hQ.2 hE.2 hE0 (by norm_num)
  have hbody : erfAbsBody (1.5 / (2 * Real.sqrt 2)) =
      1 - erfPoly (1 / (1 + erfA * (1.5 / (2 * Real.sqrt 2)))) * Real.exp (-(9 / 32)) := by
    simp only [erfAbsBody]
    rw [zC7_sq]
  rw [hbody]
  constructor
  · nlinarith
  · nlinarith

theorem fairC7_eq : bracketFairValue ((44:ℝ) : WithBot ℝ) ((46:ℝ) : WithTop ℝ) 45 2 =
    erfAbsBody (1.5 / (2 * Real.sqrt 2)) := by
  have hzpos : (0:ℝ) < 1.5 / (2 * Real.sqrt 2) := by
    have h := sqrt2_pos
    positivity
  have hB := bodyC7_bounds
  have hhi : hiCDFterm ((46:ℝ) : WithTop ℝ) 45 2 =
      0.5 * (1 + erfAbsBody (1.5 / (2 * Real.sqrt 2))) := by
    simp only [hiCDFterm, normalCDF]
    rw [show ((46:ℝ) + 0.5 - 45) = 1.5 by norm_num]
    rw [erf_of_nonneg hzpos.le]
  have hlo : loCDFterm ((44:ℝ) : WithBot ℝ) 45 2 =
      0.5 * (1 - erfAbsBody (1.5 / (2 * Real.sqrt 2))) := by
    simp only [loCDFterm, normalCDF]
    rw [show ((44:ℝ) - 0.5 - 45) = -(1.5 : ℝ) by norm_num, neg_div]
    rw [erf_of_neg (by linarith : -(1.5 / (2 * Real.sqrt 2)) < 0), neg_neg]
    ring
  simp only [bracketFairValue, hhi, hlo]
  rw [show 0.5 * (1 + erfAbsBody (1.5 / (2 * Real.sqrt 2))) -
      0.5 * (1 - erfAbsBody (1.5 / (2 * Real.sqrt 2))) =
      erfAbsBody (1.5 / (2 * Real.sqrt 2)) by ring]
  rw [min_eq_right (by linarith [hB.2]), max_eq_right (by linarith [hB.1])]

theorem fairC7_bounds : 0.54 ≤ bracketFairValue ((44:ℝ) : WithBot ℝ) ((46:ℝ) : WithTop ℝ) 45 2
    ∧ bracketFairValue ((44:ℝ) : WithBot ℝ) ((46:ℝ) : WithTop ℝ) 45 2 ≤ 0.5527 := by
  rw [fairC7_eq]
  exact bodyC7_bounds

theorem mergeSort_singleton {α : Type} (a : α) (le : α → α → Bool) :
    List.mergeSort [a] le = [a] :=
  List.perm_singleton.mp (List.mergeSort_perm [a] le)

theorem priceBracketsC7 : priceBrackets [bC7] 45 2 (fun _ => some 0.30) = [pbC7] := by
  simp only [priceBrackets, List.filterMap, Option.map, mergeSort_singleton]
  simp [pbC7, bC7]

theorem qualifiesC7 : qualifies 0.2 0.4 pbC7 = true := by
  have hfair := fairC7_bounds
  simp only [qualifies, pbC7, Bool.and_eq_true, decide_eq_true_eq]
  exact ⟨by linarith [hfair.1], by linarith [hfair.1]⟩

theorem findC7 : List.find? (qualifies 0.2 0.4) [pbC7] = some pbC7 := by
  simp [List.find?, qualifiesC7]

theorem scanCityCore_empty (city : String) (f : WeatherForecast)
    (ask : String → Option ℝ) (now : ℤ) (me mf : ℝ) :
    scanCityCore city f [] ask now me mf =
      { city := city, forecastHighF := f.forecastHighF, sigmaF := 0,
        targetBracket := none, allBrackets := [],
        skippedReason := some "no_market", scannedAt := now } := by
  simp [scanCityCore]

theorem scanCityCore_closing (city : String) (f : WeatherForecast)
    (bs : List PolymarketBracket) (ask : String → Option ℝ) (now : ℤ) (me mf : ℝ)
    (hne : bs.isEmpty = false)
    (hnear : ((bs.map (fun b => b.closeTimeUtc)).min?).getD 0 - now < 30 * 60 * 1000) :
    scanCityCore city f bs ask now me mf =
      { city := city, forecastHighF := f.forecastHighF, sigmaF := 0,
        targetBracket := none, allBrackets := [],
        skippedReason := some "market_closing_soon", scannedAt := now } := by
  simp only [scanCityCore, hne, Bool.false_eq_true, if_false]
  rw [if_pos hnear]

theorem scanCityCore_far (city : String) (f : WeatherForecast)
    (bs : List PolymarketBracket) (ask : String → Option ℝ) (now : ℤ) (me mf : ℝ)
    (hne : bs.isEmpty = false)
    (hfar : ¬(((bs.map (fun b => b.closeTimeUtc)).min?).getD 0 - now < 30 * 60 * 1000)) :
    scanCityCore city f bs ask now me mf = scanCityFar city f bs ask now me mf := by
  simp only [scanCityCore, scanCityFar, hne, Bool.false_eq_true, if_false]
  rw [if_neg hfar]

theorem scanCityC7 : scanCity "nyc" envC7 0.2 0.4 = .ok oppC7 := by
  simp only [scanCity, envC7]
  have hms : (([bC7].map (fun b => b.closeTimeUtc)).min?).getD 0 - (0:ℤ) = 7200000 := by
    rfl
  have hcore : scanCityCore "nyc" { forecastHighF := 45, fetchedAt := 0 } [bC7]
      (fun _ => some 0.30) 0 0.2 0.4 = oppC7 := by
    rw [scanCityCore_far "nyc" { forecastHighF := 45, fetchedAt := 0 } [bC7]
      (fun _ => some 0.30) 0 0.2 0.4 rfl (by rw [hms]; norm_num)]
    simp only [scanCityFar, hms]
    have hsig : forecastSigmaF (((7200000 : ℤ) : ℝ) / 3600000) = 2 := by
      rw [forecastSigmaF, if_pos (by norm_num)]
    rw [hsig]
    have hfil : [bC7].filter (fun b => !b.isTerminal && b.acceptingOrders) = [bC7] := rfl
    rw [hfil, priceBracketsC7, findC7]
    simp [oppC7]
  rw [hcore]

theorem processCityC7 :
    processCity cfgC7 tickEnvC7 [] 100 "nyc" =
      ({ city := "nyc", forecastHighF := 45, sigmaF := 2,
         targetBracket := some "44-46°F", bestEdge := some pbC7.edge,
         orderId := some "oid1", skippedReason := none, scannedAt := 0 },
       [{ tokenId := "tok-44-46", price := 0.30, sizeUsdc := 5 }]) := by
  have hmin : min (5:ℝ) 10 = 5 := min_eq_left (by norm_num)
  have hlt : ¬((100:ℝ) < min (5:ℝ) 10) := by
    rw [hmin]
    norm_num
  simp [processCity, tickEnvC7, cfgC7, oppC7, pbC7, bC7, hmin, hlt]
  norm_num

/-- C7 counterexample: at forecast μ = 45°F, σ = 2, bracket [44, 46], ask
price 0.30, the pricing model does not compute fair value ≈ 0.667 and edge
≈ 0.367 — the fair value is below 0.6 (it is ≈ 0.547) and the edge is below
0.3 (it is ≈ 0.247). -/
theorem edge_scenario_counterexample :
    bracketFairValue ((44:ℝ) : WithBot ℝ) ((46:ℝ) : WithTop ℝ) 45 2 < 0.6
    ∧ bracketFairValue ((44:ℝ) : WithBot ℝ) ((46:ℝ) : WithTop ℝ) 45 2 - 0.30 < 0.3 := by
  have h := fairC7_bounds
  constructor
  · linarith [h.2]
  · linarith [h.2]

/-- C7 amended: for forecast μ = 45°F, σ = 2, bracket [44, 46], ask price
0.30, the pricing model computes fair value in (0.54, 0.5527) (≈ 0.547, not
≈ 0.667) and edge in (0.24, 0.2527) (≈ 0.247, not ≈ 0.367); with
minEdge = 0.20 and minFairValue = 0.40 the bracket still satisfies both
thresholds and qualifies — the scan selects it as the target bracket and the
live tick attempts an order for it at ask 0.30 sized to 5 USDC. -/
theorem edge_scenario_amended :
    (0.54 ≤ bracketFairValue ((44:ℝ) : WithBot ℝ) ((46:ℝ) : WithTop ℝ) 45 2
      ∧ bracketFairValue ((44:ℝ) : WithBot ℝ) ((46:ℝ) : WithTop ℝ) 45 2 ≤ 0.5527)
    ∧ (0.2 ≤ pbC7.edge ∧ 0.4 ≤ pbC7.fairValue)
    ∧ scanCity "nyc" envC7 0.2 0.4 = .ok oppC7
    ∧ oppC7.targetBracket = some pbC7
    ∧ (processCity cfgC7 tickEnvC7 [] 100 "nyc").2 =
        [{ tokenId := "tok-44-46", price := 0.30, sizeUsdc := 5 }] := by
  refine ⟨fairC7_bounds, ⟨?_, ?_⟩, scanCityC7, rfl, ?_⟩
  · have h := fairC7_bounds
    simp only [pbC7]
    linarith [h.1]
  · have h := fairC7_bounds
    simp only [pbC7]
    linarith [h.1]
  · rw [processCityC7]

/-! ### The scan: sortedness of priced brackets and selection -/

theorem priceBrackets_pairwise (bs : List PolymarketBracket) (f s : ℝ)
    (ask : String → Option ℝ) :
    (priceBrackets bs f s ask).Pairwise fun a b => b.edge ≤ a.edge := by
  have h := @List.sorted_mergeSort PricedBracket
    (fun a b : PricedBracket => decide (b.edge ≤ a.edge))
    (fun a b c hab hbc => by
      rw [decide_eq_true_eq] at hab hbc ⊢
      exact le_trans hbc hab)
    (fun a b => by
      rcases le_total b.edge a.edge with h | h
      · simp [h]
      · simp [h])
    (bs.filterMap fun b =>
      (ask b.yesTokenId).map fun askPrice =>
        { toPolymarketBracket := b
          askPrice := askPrice
          fairValue := bracketFairValue b.lo b.hi f s
          edge := bracketFairValue b.lo b.hi f s - askPrice })
  simp only [priceBrackets]
  exact h.imp fun hab => of_decide_eq_true hab

theorem find?_max_of_sorted {l : List PricedBracket} {p : PricedBracket → Bool}
    {b : PricedBracket} (hs : l.Pairwise fun a b => b.edge ≤ a.edge)
    (hf : l.find? p = some b) :
    ∀ q ∈ l, p q = true → q.edge ≤ b.edge := by
  induction l with
  | nil => simp at hf
  | cons a tl ih =>
    rcases List.pairwise_cons.mp hs with ⟨ha, htl⟩
    cases hpa : p a with
    | true =>
      rw [List.find?_cons_of_pos _ hpa, Option.some.injEq] at hf
      subst hf
      intro q hq _
      rcases List.mem_cons.mp hq with rfl | hq2
      · exact le_refl _
      · exact ha q hq2
    | false =>
      rw [List.find?_cons_of_neg _ (by simp [hpa])] at hf
      intro q hq hpq
      rcases List.mem_cons.mp hq with rfl | hq2
      · rw [hpa] at hpq
        exact absurd hpq (by simp)
      · exact ih htl hf q hq2 hpq

theorem min_close_lt_iff (bs : List PolymarketBracket) (hne : bs ≠ []) (now bound : ℤ) :
    ((bs.map (fun b => b.closeTimeUtc)).min?).getD 0 - now < bound ↔
      ∃ b ∈ bs, b.closeTimeUtc - now < bound := by
  obtain ⟨m, hm⟩ : ∃ m, (bs.map (fun b => b.closeTimeUtc)).min? = some m := by
    cases bs with
    | nil => exact absurd rfl hne
    | cons a tl => exact ⟨_, rfl⟩
  have hchar := (@List.min?_eq_some_iff ℤ m _ _ ⟨fun h1 h2 => le_antisymm h1 h2⟩
    (fun a => le_refl a) (fun a b => min_choice a b) (fun a b c => le_min_iff)).mp hm
  rw [hm, Option.getD_some]
  constructor
  · intro h
    rcases List.mem_map.mp hchar.1 with ⟨b, hb, hbe⟩
    exact ⟨b, hb, by omega⟩
  · rintro ⟨b, hb, hlt⟩
    have := hchar.2 b.closeTimeUtc (List.mem_map_of_mem _ hb)
    omega

/-- C2: for every city, date (its brackets entering through the
market-discovery fetch result), minEdge and minFairValue, scanCity returns a
complete result object and never throws for ordinary no-opportunity cases:
once the two fetches succeed the remainder is a total function; skippedReason
is "no_market" when the fetched bracket list is empty; skippedReason is
"market_closing_soon" when the earliest bracket close time is less than 30
minutes away; otherwise the targetBracket is a priced bracket with the
highest edge among those satisfying edge ≥ minEdge and fairValue ≥
minFairValue, and when no priced bracket qualifies the targetBracket is null
with skippedReason "no_edge". -/
theorem scanCity_skip_and_selection (city : String) (env : ScanEnv)
    (minEdge minFairValue : ℝ) (f : WeatherForecast) (bs : List PolymarketBracket)
    (hf : env.forecast = .ok f) (hb : env.rawBrackets = .ok bs) :
    scanCity city env minEdge minFairValue =
      .ok (scanCityCore city f bs env.ask env.now minEdge minFairValue)
    ∧ (bs = [] →
        scanCityCore city f bs env.ask env.now minEdge minFairValue =
          { city := city, forecastHighF := f.forecastHighF, sigmaF := 0,
            targetBracket := none, allBrackets := [],
            skippedReason := some "no_market", scannedAt := env.now })
    ∧ (bs ≠ [] → (∃ b ∈ bs, b.closeTimeUtc - env.now < 30 * 60 * 1000) →
        scanCityCore city f bs env.ask env.now minEdge minFairValue =
          { city := city, forecastHighF := f.forecastHighF, sigmaF := 0,
            targetBracket := none, allBrackets := [],
            skippedReason := some "market_closing_soon", scannedAt := env.now })
    ∧ (bs ≠ [] → (∀ b ∈ bs, ¬(b.closeTimeUtc - env.now < 30 * 60 * 1000)) →
        (∀ tb, (scanCityCore city f bs env.ask env.now minEdge minFairValue).targetBracket
            = some tb →
          (scanCityCore city f bs env.ask env.now minEdge minFairValue).skippedReason = none
          ∧ tb ∈ (scanCityCore city f bs env.ask env.now minEdge minFairValue).allBrackets
          ∧ minEdge ≤ tb.edge ∧ minFairValue ≤ tb.fairValue
          ∧ ∀ q ∈ (scanCityCore city f bs env.ask env.now minEdge minFairValue).allBrackets,
              minEdge ≤ q.edge → minFairValue ≤ q.fairValue → q.edge ≤ tb.edge)
        ∧ ((scanCityCore city f bs env.ask env.now minEdge minFairValue).targetBracket
            = none →
          (scanCityCore city f bs env.ask env.now minEdge minFairValue).skippedReason
            = some "no_edge"
          ∧ ∀ q ∈ (scanCityCore city f bs env.ask env.now minEdge minFairValue).allBrackets,
              ¬(minEdge ≤ q.edge ∧ minFairValue ≤ q.fairValue))) := by
  refine ⟨by simp [scanCity, hf, hb], ?_, ?_, ?_⟩
  · rintro rfl
    exact scanCityCore_empty city f env.ask env.now minEdge minFairValue
  · intro hne hex
    have hne' : bs.isEmpty = false := by
      cases bs with
      | nil => exact absurd rfl hne
      | cons a tl => rfl
    exact scanCityCore_closing city f bs env.ask env.now minEdge minFairValue hne'
      ((min_close_lt_iff bs hne env.now (30 * 60 * 1000)).mpr hex)
  · intro hne hall
    have hne' : bs.isEmpty = false := by
      cases bs with
      | nil => exact absurd rfl hne
      | cons a tl => rfl
    have hfar : ¬(((bs.map (fun b => b.closeTimeUtc)).min?).getD 0 - env.now
        < 30 * 60 * 1000) := by
      rw [min_close_lt_iff bs hne env.now (30 * 60 * 1000)]
      push_neg
      intro b hb2
      have := hall b hb2
      omega
    rw [scanCityCore_far city f bs env.ask env.now minEdge minFairValue hne' hfar]
    simp only [scanCityFar]
    constructor
    · intro tb htb
      refine ⟨by rw [htb]; rfl, List.mem_of_find?_eq_some htb, ?_, ?_, ?_⟩
      · have := List.find?_some htb
        simp only [qualifies, Bool.and_eq_true, decide_eq_true_eq] at this
        exact this.1
      · have := List.find?_some htb
        simp only [qualifies, Bool.and_eq_true, decide_eq_true_eq] at this
        exact this.2
      · intro q hq h1 h2
        refine find?_max_of_sorted (priceBrackets_pairwise _ _ _ _) htb q hq ?_
        simp only [qualifies, Bool.and_eq_true, decide_eq_true_eq]
        exact ⟨h1, h2⟩
    · intro htb
      refine ⟨by rw [htb]; rfl, ?_⟩
      intro q hq hcontra
      have hnone := List.find?_eq_none.mp htb q hq
      apply hnone
      simp only [qualifies, Bool.and_eq_true, decide_eq_true_eq]
      exact ⟨hcontra.1, hcontra.2⟩

/-- Witness for C2: a concrete environment whose market fetch yields no
brackets is skipped with "no_market", and the edge-scenario environment
selects its single qualifying bracket. -/
theorem scanCity_skip_and_selection_witness :
    scanCity "nyc"
        { forecast := .ok { forecastHighF := 45, fetchedAt := 0 },
          rawBrackets := .ok [], ask := fun _ => none, now := 0 } 0.2 0.4 =
      .ok { city := "nyc", forecastHighF := 45, sigmaF := 0, targetBracket := none,
            allBrackets := [], skippedReason := some "no_market", scannedAt := 0 } := by
  have h := scanCity_skip_and_selection "nyc"
    { forecast := .ok { forecastHighF := 45, fetchedAt := 0 },
      rawBrackets := .ok [], ask := fun _ => none, now := 0 } 0.2 0.4
    { forecastHighF := 45, fetchedAt := 0 } [] rfl rfl
  rw [h.1, h.2.1 rfl]

/-! ### The strategy tick: balance guard and order sizing -/

/-- C5: in live (non-dry-run) mode, for every location whose scan produced a
qualifying bracket that is not already positioned: if the available USDC
balance is below the lesser of the configured per-trade amount
(tradeAmountUsdc) and the per-bracket cap (maxPositionUsdc), the tick
records a Reading with skippedReason "insufficient_usdc" and orderId null
and the Order-Book Client's placeOrder function is not invoked (no order
call is emitted for that location); otherwise an order is submitted sized to
that lesser amount at the observed ask price.  The final conjunct ties the
per-location body to the full tick: with a loaded wallet the tick's Readings
and order calls are exactly those of the per-location body. -/
theorem tick_insufficient_usdc_guard (cfg : PolymarketWeatherConfig) (env : TickEnv)
    (positioned : List String) (balance : ℝ) (city : String)
    (result : CityOpportunity) (best : PricedBracket)
    (hd : cfg.dryRun = false)
    (hs : env.scan city = .ok result)
    (hr : result.skippedReason = none)
    (ht : result.targetBracket = some best)
    (hp : best.yesTokenId ∉ positioned) :
    (balance < min cfg.tradeAmountUsdc cfg.maxPositionUsdc →
      processCity cfg env positioned balance city =
        ({ city := city, forecastHighF := result.forecastHighF, sigmaF := result.sigmaF,
           targetBracket := some best.label, bestEdge := some best.edge, orderId := none,
           skippedReason := some "insufficient_usdc", scannedAt := env.now }, []))
    ∧ (¬(balance < min cfg.tradeAmountUsdc cfg.maxPositionUsdc) →
      (processCity cfg env positioned balance city).2 =
        [{ tokenId := best.yesTokenId, price := best.askPrice,
           sizeUsdc := min cfg.tradeAmountUsdc cfg.maxPositionUsdc }])
    ∧ (∀ w, env.wallet = .ok w →
      runPolymarketWeatherArbTick cfg env =
        (cfg.cities.map fun c =>
          (processCity cfg env (env.openOrders.map fun o => o.asset_id) env.usdcBalance c).1,
         (cfg.cities.map fun c =>
          (processCity cfg env (env.openOrders.map fun o => o.asset_id) env.usdcBalance c).2).flatten)) := by
  refine ⟨?_, ?_, ?_⟩
  · intro hbal
    simp only [processCity, hs, hr, ht, Option.map_some', hd, Bool.false_eq_true, if_false]
    rw [if_neg hp, if_pos hbal]
  · intro hbal
    simp only [processCity, hs, hr, ht, Option.map_some', hd, Bool.false_eq_true, if_false]
    rw [if_neg hp, if_neg hbal]
    cases h : env.placeOrder best.yesTokenId best.askPrice
        (min cfg.tradeAmountUsdc cfg.maxPositionUsdc) with
    | ok o => simp
    | error e => simp
  · intro w hw
    simp only [runPolymarketWeatherArbTick, hd, Bool.false_eq_true, if_false, hw,
      Except.map, Option.isSome_some, if_true, List.map_map, Function.comp_def]

/-- Witness for C5: balance 3, tradeAmountUsdc 5, maxPositionUsdc 10 in the
edge scenario — the Reading carries skippedReason "insufficient_usdc" with a
null orderId, and no placeOrder call is emitted. -/
theorem tick_insufficient_usdc_guard_witness :
    (3:ℝ) < min 5 10
    ∧ processCity cfgC7 envC5 [] 3 "nyc" =
        ({ city := "nyc", forecastHighF := oppC7.forecastHighF, sigmaF := oppC7.sigmaF,
           targetBracket := some pbC7.label, bestEdge := some pbC7.edge, orderId := none,
           skippedReason := some "insufficient_usdc", scannedAt := 0 }, []) := by
  have hbal : (3:ℝ) < min cfgC7.tradeAmountUsdc cfgC7.maxPositionUsdc := by
    show (3:ℝ) < min 5 10
    rw [min_eq_left (by norm_num : (5:ℝ) ≤ 10)]
    norm_num
  refine ⟨hbal, ?_⟩
  have h := (tick_insufficient_usdc_guard cfgC7 envC5 [] 3 "nyc" oppC7 pbC7
    rfl rfl rfl rfl (by simp)).1 hbal
  rw [h]
  exact rfl

/-! ### The CLOB client: amount math and response handling -/

/-- C10: placeOrder's amount math is well-defined only under the unstated
precondition limitPrice > 0.  The taker-amount computation divides sizeUsdc
by limitPrice with no guard, so for limitPrice = 0 (and positive size) the
quotient is infinite and the BigInt conversion of the floored result throws
before any signing or HTTP request occurs (both effect flags stay false);
for every limitPrice > 0 and sizeUsdc ≥ 0 the computation is total with
makerAmount = ⌊sizeUsdc·10⁶⌋ and takerAmount = ⌊(sizeUsdc/limitPrice)·10⁶⌋. -/
theorem placeOrder_amount_math (limitPrice sizeUsdc : ℚ) :
    (limitPrice = 0 → 0 < sizeUsdc →
      (orderAmounts limitPrice sizeUsdc).1 = JSNum.posInf)
    ∧ (limitPrice = 0 → ∀ (tokenId : String) (resp : ClobOrderResponse),
        placeOrderClob tokenId limitPrice sizeUsdc resp =
          (.error "RangeError: Cannot convert to a BigInt", false, false))
    ∧ (0 < limitPrice → 0 ≤ sizeUsdc →
        (orderAmounts limitPrice sizeUsdc).2.1 = some ⌊sizeUsdc * 1000000⌋
        ∧ (orderAmounts limitPrice sizeUsdc).2.2 = some ⌊sizeUsdc / limitPrice * 1000000⌋) := by
  refine ⟨?_, ?_, ?_⟩
  · intro h0 hpos
    subst h0
    simp [orderAmounts, jsDiv, hpos]
  · intro h0 tokenId resp
    subst h0
    rcases lt_trichotomy 0 sizeUsdc with hpos | hzero | hneg
    · simp [placeOrderClob, orderAmounts, jsDiv, jsMulPos, jsFloor, jsToBigInt, hpos]
    · rw [← hzero]
      simp [placeOrderClob, orderAmounts, jsDiv, jsMulPos, jsFloor, jsToBigInt]
    · simp [placeOrderClob, orderAmounts, jsDiv, jsMulPos, jsFloor, jsToBigInt,
        hneg, not_lt_of_lt hneg]
  · intro hpos _
    simp [orderAmounts, jsDiv, jsMulPos, jsFloor, jsToBigInt, ne_of_gt hpos]

/-- Witness for C10: limitPrice = 0 with sizeUsdc = 5 throws before signing;
limitPrice = 3/10 with sizeUsdc = 5 yields both amounts. -/
theorem placeOrder_amount_math_witness :
    ((0:ℚ) < 5 ∧ (orderAmounts 0 5).1 = JSNum.posInf)
    ∧ placeOrderClob "tok" 0 5
        { ok := true, text := "", orderID := none, status := none, errorMsg := none } =
        (.error "RangeError: Cannot convert to a BigInt", false, false)
    ∧ ((0:ℚ) < 3 / 10
       ∧ (orderAmounts (3 / 10) 5).2.1 = some ⌊(5:ℚ) * 1000000⌋
       ∧ (orderAmounts (3 / 10) 5).2.2 = some ⌊(5:ℚ) / (3 / 10) * 1000000⌋) :=
  ⟨⟨by norm_num, (placeOrder_amount_math 0 5).1 rfl (by norm_num)⟩,
   (placeOrder_amount_math 0 5).2.1 rfl "tok" _,
   by norm_num,
   ((placeOrder_amount_math (3 / 10) 5).2.2 (by norm_num) (by norm_num)).1,
   ((placeOrder_amount_math (3 / 10) 5).2.2 (by norm_num) (by norm_num)).2⟩

/-- C3 counterexample: a 2xx success response whose body is missing the
order identifier is not surfaced as an error — placeOrder accepts it with
the placeholder order id "unknown". -/
theorem placeOrder_missing_id_counterexample :
    (placeOrderClob "tok" (3 / 10) 5
      { ok := true, text := "", orderID := none, status := some "live",
        errorMsg := none }).1 =
      .ok { orderId := "unknown", status := "live", tokenId := "tok",
            price := 3 / 10, sizeUsdc := 5 } := by
  norm_num [placeOrderClob, orderAmounts, jsDiv, jsMulPos, jsFloor, jsToBigInt]

/-- C3 amended: placeOrder surfaces rejected orders as failures carrying the
server's message — it throws when the CLOB response is non-2xx (with the
body text) and throws when a 2xx body carries an explicit error field (with
that message) — but a 2xx otherwise-success response whose body is missing
the order identifier is not an error: it is accepted with the placeholder
order id "unknown". -/
theorem placeOrder_rejection_amended (tokenId : String) (limitPrice sizeUsdc : ℚ)
    (resp : ClobOrderResponse) (hlp : 0 < limitPrice) :
    (resp.ok = false → (placeOrderClob tokenId limitPrice sizeUsdc resp).1 =
        .error (String.append "CLOB order failed: " resp.text))
    ∧ (∀ m, resp.ok = true → resp.errorMsg = some m →
        (placeOrderClob tokenId limitPrice sizeUsdc resp).1 =
          .error (String.append "CLOB order rejected: " m))
    ∧ (resp.ok = true → resp.errorMsg = none → resp.orderID = none →
        (placeOrderClob tokenId limitPrice sizeUsdc resp).1 =
          .ok { orderId := "unknown", status := resp.status.getD "unknown",
                tokenId := tokenId, price := limitPrice, sizeUsdc := sizeUsdc }) := by
  have hAmt : orderAmounts limitPrice sizeUsdc =
      (JSNum.num (sizeUsdc / limitPrice), some ⌊sizeUsdc * 1000000⌋,
       some ⌊sizeUsdc / limitPrice * 1000000⌋) := by
    simp [orderAmounts, jsDiv, jsMulPos, jsFloor, jsToBigInt, ne_of_gt hlp]
  refine ⟨?_, ?_, ?_⟩
  · intro hok
    simp [placeOrderClob, hAmt, hok]
  · intro m hok herr
    simp [placeOrderClob, hAmt, hok, herr]
  · intro hok herr hid
    simp [placeOrderClob, hAmt, hok, herr, hid]

/-- Witness for C3's amended statement: a non-2xx response with body "boom"
is surfaced as a failure carrying that text. -/
theorem placeOrder_rejection_amended_witness :
    (0:ℚ) < 3 / 10
    ∧ (placeOrderClob "tok" (3 / 10) 5
        { ok := false, text := "boom", orderID := none, status := none,
          errorMsg := none }).1 =
        .error (String.append "CLOB order failed: " "boom") :=
  ⟨by norm_num, (placeOrder_rejection_amended "tok" (3 / 10) 5 _ (by norm_num)).1 rfl⟩

/-! ### Strategy manager: dead-owner cleanup and lifecycle -/

/-- C4: for every observer (non-owner, no armed timer) process, if the
persisted status file claims the scanner is running but the liveness marker
is absent, unparsable, or references a process id that is not alive
(`isDaemonRunning = false` covers exactly these three cases), then a status
query deletes both the status file and the liveness-marker file and returns
a synthesized status with running = false carrying the dead-daemon-cleanup
tag — the literal `_source: "dead_daemon_cleanup"` in the standalone manager
variant, and `_stale: true` (that variant's dead-cleanup marker) in the
`src/strategyManager.ts` variant — rather than reporting "running". -/
theorem observer_dead_daemon_cleanup (st : DaemonRam) (fs : ManagerFS)
    (alive : ℕ → Bool) (ageMs : ℤ) (d : StrategyStatus)
    (hobs : st.isOwnerProcess = false) (hto : st.intervalId = none)
    (hfile : fs.statusFile = some (some d)) (hrun : d.weather_arb.running = true)
    (hdead : isDaemonRunning fs alive = false) :
    ((Part005.getStatus st fs alive ageMs false).1.weather_arb.running = false
     ∧ (Part005.getStatus st fs alive ageMs false).1.source = some "dead_daemon_cleanup"
     ∧ (Part005.getStatus st fs alive ageMs false).2.statusFile = none
     ∧ (Part005.getStatus st fs alive ageMs false).2.pidFile = none)
    ∧ ((SrcMgr.getStatus st fs alive).1.weather_arb.running = false
     ∧ (SrcMgr.getStatus st fs alive).1.stale = some true
     ∧ (SrcMgr.getStatus st fs alive).2.statusFile = none
     ∧ (SrcMgr.getStatus st fs alive).2.pidFile = none) := by
  constructor
  · simp [Part005.getStatus, Part005.buildLiveStatus, hobs, hto, hfile, hrun, hdead]
  · simp [SrcMgr.getStatus, SrcMgr.emptyWeatherArb, hobs, hfile, hrun, hdead]

/-- Witness for C4: a status file claiming "running" next to a marker
referencing pid 4242 with no process alive — the observer query reports
stopped with the cleanup tags and deletes both files, in both manager
variants. -/
theorem observer_dead_daemon_cleanup_witness :
    ((Part005.getStatus
        { intervalId := none, config := none, lastReading := none, isOwnerProcess := false }
        { statusFile := some (some statusRunning), pidFile := some (some 4242) }
        (fun _ => false) 0 false).1.weather_arb.running = false
     ∧ (Part005.getStatus
        { intervalId := none, config := none, lastReading := none, isOwnerProcess := false }
        { statusFile := some (some statusRunning), pidFile := some (some 4242) }
        (fun _ => false) 0 false).1.source = some "dead_daemon_cleanup"
     ∧ (Part005.getStatus
        { intervalId := none, config := none, lastReading := none, isOwnerProcess := false }
        { statusFile := some (some statusRunning), pidFile := some (some 4242) }
        (fun _ => false) 0 false).2.statusFile = none
     ∧ (Part005.getStatus
        { intervalId := none, config := none, lastReading := none, isOwnerProcess := false }
        { statusFile := some (some statusRunning), pidFile := some (some 4242) }
        (fun _ => false) 0 false).2.pidFile = none)
    ∧ ((SrcMgr.getStatus
        { intervalId := none, config := none, lastReading := none, isOwnerProcess := false }
        { statusFile := some (some statusRunning), pidFile := some (some 4242) }
        (fun _ => false)).1.weather_arb.running = false
     ∧ (SrcMgr.getStatus
        { intervalId := none, config := none, lastReading := none, isOwnerProcess := false }
        { statusFile := some (some statusRunning), pidFile := some (some 4242) }
        (fun _ => false)).1.stale = some true
     ∧ (SrcMgr.getStatus
        { intervalId := none, config := none, lastReading := none, isOwnerProcess := false }
        { statusFile := some (some statusRunning), pidFile := some (some 4242) }
        (fun _ => false)).2.statusFile = none
     ∧ (SrcMgr.getStatus
        { intervalId := none, config := none, lastReading := none, isOwnerProcess := false }
        { statusFile := some (some statusRunning), pidFile := some (some 4242) }
        (fun _ => false)).2.pidFile = none) :=
  observer_dead_daemon_cleanup
    { intervalId := none, config := none, lastReading := none, isOwnerProcess := false }
    { statusFile := some (some statusRunning), pidFile := some (some 4242) }
    (fun _ => false) 0 statusRunning rfl rfl rfl rfl rfl

/-- C6 (evaluating the code at the failing input): from a fresh manager
state, calling startWeatherArb twice in a row without an intervening stop
leaves TWO armed interval timers — the second start overwrites the interval
handle without clearing the first timer, so the claim that exactly one
active interval timer exists after the second start fails on this code.
The stop half of the claim does hold: stopWeatherArb on an already-stopped
manager is a no-op, and stopping after the double start clears only the
latest timer, leaving the leaked first timer armed. -/
theorem double_start_duplicates_timers :
    (SrcMgr.startWeatherArb cfgC6 42
      (SrcMgr.startWeatherArb cfgC6 42 mgr0)).activeTimers.length = 2
    ∧ SrcMgr.stopWeatherArb mgr0 = mgr0
    ∧ (SrcMgr.stopWeatherArb (SrcMgr.startWeatherArb cfgC6 42
        (SrcMgr.startWeatherArb cfgC6 42 mgr0))).activeTimers.length = 1 :=
  ⟨rfl, rfl, rfl⟩

/-! ### Bracket-label parser: digit rendering and round trips -/

theorem digitVal_digitChar {d : ℕ} (h : d < 10) :
    digitVal (Char.ofNat (Char.toNat '0' + d)) = d := by
  interval_cases d <;> rfl

theorem isDigit_digitChar {d : ℕ} (h : d < 10) :
    Char.isDigit (Char.ofNat (Char.toNat '0' + d)) = true := by
  interval_cases d <;> rfl

theorem natDigits_ne_nil (n : ℕ) : natDigits n ≠ [] := by
  rw [natDigits]
  split
  · simp
  · simp

theorem natDigits_all_digits (n : ℕ) : ∀ c ∈ natDigits n, Char.isDigit c = true := by
  induction n using Nat.strong_induction_on with
  | _ n ih =>
    rw [natDigits]
    split
    next h =>
      intro c hc
      rw [List.mem_singleton] at hc
      subst hc
      exact isDigit_digitChar h
    next h =>
      intro c hc
      rw [List.mem_append] at hc
      rcases hc with hc | hc
      · exact ih (n / 10) (Nat.div_lt_self (by omega) (by omega)) c hc
      · rw [List.mem_singleton] at hc
        subst hc
        exact isDigit_digitChar (Nat.mod_lt _ (by omega))

theorem digitsToNat_append_singleton (l : List Char) (c : Char) :
    digitsToNat (l ++ [c]) = 10 * digitsToNat l + digitVal c := by
  simp [digitsToNat, List.foldl_append]

theorem digitsToNat_natDigits (n : ℕ) : digitsToNat (natDigits n) = n := by
  induction n using Nat.strong_induction_on with
  | _ n ih =>
    rw [natDigits]
    split
    next h =>
      simp only [digitsToNat, List.foldl_cons, List.foldl_nil]
      rw [digitVal_digitChar h]
      omega
    next h =>
      rw [digitsToNat_append_singleton, ih (n / 10) (Nat.div_lt_self (by omega) (by omega)),
        digitVal_digitChar (Nat.mod_lt _ (by omega))]
      omega

theorem natDigits_isEmpty_false (n : ℕ) : (natDigits n).isEmpty = false := by
  cases h : natDigits n with
  | nil => exact absurd h (natDigits_ne_nil n)
  | cons c cs => rfl

theorem headFails_cons {p : Char → Bool} {c : Char} (h : p c = false) (l : List Char) :
    ∀ x, ((c :: l).head? = some x) → p x = false := by
  intro x hx
  rw [List.head?_cons, Option.some.injEq] at hx
  subst hx
  exact h

theorem headFails_nil {p : Char → Bool} :
    ∀ x, (([] : List Char).head? = some x) → p x = false := by
  intro x hx
  simp at hx

theorem takeWhile_all_append {p : Char → Bool} {l rest : List Char}
    (hl : ∀ c ∈ l, p c = true) (hr : ∀ c, rest.head? = some c → p c = false) :
    (l ++ rest).takeWhile p = l ∧ (l ++ rest).dropWhile p = rest := by
  induction l with
  | nil =>
    cases rest with
    | nil => exact ⟨rfl, rfl⟩
    | cons r rs =>
      have := hr r rfl
      simp [List.takeWhile_cons, List.dropWhile_cons, this]
  | cons a l ih =>
    have ha : p a = true := hl a (List.mem_cons_self a l)
    have ihl : ∀ c ∈ l, p c = true := fun c hc => hl c (List.mem_cons_of_mem a hc)
    rcases ih ihl with ⟨h1, h2⟩
    simp [List.takeWhile_cons, List.dropWhile_cons, ha, h1, h2]

theorem parseNat_natDigits (n : ℕ) (rest : List Char)
    (hr : ∀ c, rest.head? = some c → Char.isDigit c = false) :
    parseNat (natDigits n ++ rest) = some (n, rest) := by
  obtain ⟨htake, hdrop⟩ := takeWhile_all_append (natDigits_all_digits n) hr
  simp only [parseNat, htake, hdrop, natDigits_isEmpty_false, Bool.false_eq_true,
    if_false, digitsToNat_natDigits]

theorem parseNat_cons_nondigit {c : Char} (h : Char.isDigit c = false) (l : List Char) :
    parseNat (c :: l) = none := by
  simp [parseNat, List.takeWhile_cons, h]

theorem parseSignedInt_intChars (z : ℤ) (rest : List Char)
    (hr : ∀ c, rest.head? = some c → Char.isDigit c = false) :
    parseSignedInt (intChars z ++ rest) = some (z, rest) := by
  rcases lt_or_le z 0 with hz | hz
  · simp only [intChars, if_pos hz, List.cons_append, parseSignedInt]
    rw [if_pos trivial, parseNat_natDigits z.natAbs rest hr]
    simp only [Option.map_some']
    simp only [Option.some.injEq, Prod.mk.injEq, and_true]
    omega
  · simp only [intChars, if_neg (not_lt.mpr hz)]
    obtain ⟨c, cs, hcc⟩ : ∃ c cs, natDigits z.natAbs = c :: cs := by
      cases h : natDigits z.natAbs with
      | nil => exact absurd h (natDigits_ne_nil _)
      | cons c cs => exact ⟨c, cs, rfl⟩
    have hcd : Char.isDigit c = true :=
      natDigits_all_digits _ c (by rw [hcc]; exact List.mem_cons_self c cs)
    have hcne : ¬(c = '-') := by
      intro h
      rw [h] at hcd
      exact absurd hcd (by decide)
    rw [hcc, List.cons_append]
    simp only [parseSignedInt, if_neg hcne]
    rw [← List.cons_append, ← hcc, parseNat_natDigits _ _ hr]
    simp only [Option.map_some']
    simp only [Option.some.injEq, Prod.mk.injEq, and_true]
    omega

theorem tryRangeF_label (a b : ℕ) :
    tryRangeF (natDigits a ++ '-' :: (natDigits b ++ ['°', 'F'])) =
      some (((a : ℚ) : WithBot ℚ), ((b : ℚ) : WithTop ℚ)) := by
  have h1 := parseNat_natDigits a ('-' :: (natDigits b ++ ['°', 'F']))
    (headFails_cons (by decide) _)
  have h2 := parseNat_natDigits b ['°', 'F'] (headFails_cons (by decide) _)
  simp only [tryRangeF, h1, h2]
  rfl

theorem parseBracketRange_rangeF (a b : ℕ) :
    parseBracketRange (natDigits a ++ '-' :: (natDigits b ++ ['°', 'F'])) =
      some (((a : ℚ) : WithBot ℚ), ((b : ℚ) : WithTop ℚ)) := by
  simp only [parseBracketRange, tryRangeF_label, Option.orElse]

theorem parseBracketRange_below (n : ℕ) :
    parseBracketRange
        (natDigits n ++ ['°', 'F', ' ', 'o', 'r', ' ', 'b', 'e', 'l', 'o', 'w']) =
      some (⊥, ((n : ℚ) : WithTop ℚ)) := by
  have h1 := parseNat_natDigits n ['°', 'F', ' ', 'o', 'r', ' ', 'b', 'e', 'l', 'o', 'w']
    (headFails_cons (by decide) _)
  have hF : tryRangeF
      (natDigits n ++ ['°', 'F', ' ', 'o', 'r', ' ', 'b', 'e', 'l', 'o', 'w']) = none := by
    simp only [tryRangeF, h1]
    rfl
  have hB : tryBelow
      (natDigits n ++ ['°', 'F', ' ', 'o', 'r', ' ', 'b', 'e', 'l', 'o', 'w']) =
      some (⊥, ((n : ℚ) : WithTop ℚ)) := by
    simp only [tryBelow, h1]
    rfl
  simp only [parseBracketRange, hF, hB, Option.orElse]

theorem parseBracketRange_higher (n : ℕ) :
    parseBracketRange
        (natDigits n ++ ['°', 'F', ' ', 'o', 'r', ' ', 'h', 'i', 'g', 'h', 'e', 'r']) =
      some (((n : ℚ) : WithBot ℚ), ⊤) := by
  have h1 := parseNat_natDigits n ['°', 'F', ' ', 'o', 'r', ' ', 'h', 'i', 'g', 'h', 'e', 'r']
    (headFails_cons (by decide) _)
  have hF : tryRangeF
      (natDigits n ++ ['°', 'F', ' ', 'o', 'r', ' ', 'h', 'i', 'g', 'h', 'e', 'r']) = none := by
    simp only [tryRangeF, h1]
    rfl
  have hB : tryBelow
      (natDigits n ++ ['°', 'F', ' ', 'o', 'r', ' ', 'h', 'i', 'g', 'h', 'e', 'r']) = none := by
    simp only [tryBelow, h1]
    rfl
  have hH : tryHigher
      (natDigits n ++ ['°', 'F', ' ', 'o', 'r', ' ', 'h', 'i', 'g', 'h', 'e', 'r']) =
      some (((n : ℚ) : WithBot ℚ), ⊤) := by
    simp only [tryHigher, h1]
    rfl
  simp only [parseBracketRange, hF, hB, hH, Option.orElse]

theorem parseBracketRange_rangeC (a b : ℤ) :
    parseBracketRange (intChars a ++ '-' :: (intChars b ++ ['°', 'C'])) =
      some ((((a : ℚ) * 9 / 5 + 32 : ℚ) : WithBot ℚ),
            (((b : ℚ) * 9 / 5 + 32 : ℚ) : WithTop ℚ)) := by
  have hsC : tryRangeC (intChars a ++ '-' :: (intChars b ++ ['°', 'C'])) =
      some ((((a : ℚ) * 9 / 5 + 32 : ℚ) : WithBot ℚ),
            (((b : ℚ) * 9 / 5 + 32 : ℚ) : WithTop ℚ)) := by
    have h1 := parseSignedInt_intChars a ('-' :: (intChars b ++ ['°', 'C']))
      (headFails_cons (by decide) _)
    have h2 := parseSignedInt_intChars b ['°', 'C'] (headFails_cons (by decide) _)
    simp only [tryRangeC, h1, h2]
    rfl
  have hPB : ∀ z : ℤ, 0 ≤ z → ∀ rest : List Char,
      parseNat (intChars z ++ rest) = ((parseNat (natDigits z.natAbs ++ rest)) :
        Option (ℕ × List Char)) := by
    intro z hz rest
    rw [intChars, if_neg (not_lt.mpr hz)]
  have hPN : ∀ z : ℤ, z < 0 → ∀ rest : List Char,
      parseNat (intChars z ++ rest) = none := by
    intro z hz rest
    rw [intChars, if_pos hz, List.cons_append]
    exact parseNat_cons_nondigit (by decide) _
  have hF : tryRangeF (intChars a ++ '-' :: (intChars b ++ ['°', 'C'])) = none := by
    rcases lt_or_le a 0 with ha | ha
    · simp only [tryRangeF, hPN a ha]
    · rcases lt_or_le b 0 with hb | hb
      · have h1 := parseNat_natDigits a.natAbs ('-' :: (intChars b ++ ['°', 'C']))
          (headFails_cons (by decide) _)
        simp only [tryRangeF, hPB a ha, h1, hPN b hb]
      · have h1 := parseNat_natDigits a.natAbs ('-' :: (intChars b ++ ['°', 'C']))
          (headFails_cons (by decide) _)
        have h2 := parseNat_natDigits b.natAbs ['°', 'C'] (headFails_cons (by decide) _)
        simp only [tryRangeF, hPB a ha, h1, hPB b hb, h2]
        rfl
  have hB : tryBelow (intChars a ++ '-' :: (intChars b ++ ['°', 'C'])) = none := by
    rcases lt_or_le a 0 with ha | ha
    · simp only [tryBelow, hPN a ha]
    · have h1 := parseNat_natDigits a.natAbs ('-' :: (intChars b ++ ['°', 'C']))
        (headFails_cons (by decide) _)
      simp only [tryBelow, hPB a ha, h1]
      rw [if_neg (by simp)]
  have hH : tryHigher (intChars a ++ '-' :: (intChars b ++ ['°', 'C'])) = none := by
    rcases lt_or_le a 0 with ha | ha
    · simp only [tryHigher, hPN a ha]
    · have h1 := parseNat_natDigits a.natAbs ('-' :: (intChars b ++ ['°', 'C']))
        (headFails_cons (by decide) _)
      simp only [tryHigher, hPB a ha, h1]
      rw [if_neg (by simp)]
  simp only [parseBracketRange, hF, hB, hH, hsC, Option.orElse]

/-- C9: the bracket-label parser maps every label of the form "A-B°F" to
bounds (A, B), every "N°F or below" to (-∞, N), every "N°F or higher" to
(N, +∞), and every Celsius range label "A-B°C" (integer bounds, possibly
negative) to the Fahrenheit bounds (A·9/5+32, B·9/5+32); in particular
"40-41°F" parses to (40, 41), "33°F or below" to (-∞, 33), and
"48°F or higher" to (48, +∞). -/
theorem parseBracketRange_label_forms :
    (∀ a b : ℕ, parseBracketRange (natDigits a ++ '-' :: (natDigits b ++ ['°', 'F'])) =
      some (((a : ℚ) : WithBot ℚ), ((b : ℚ) : WithTop ℚ)))
    ∧ (∀ n : ℕ, parseBracketRange
        (natDigits n ++ ['°', 'F', ' ', 'o', 'r', ' ', 'b', 'e', 'l', 'o', 'w']) =
      some (⊥, ((n : ℚ) : WithTop ℚ)))
    ∧ (∀ n : ℕ, parseBracketRange
        (natDigits n ++ ['°', 'F', ' ', 'o', 'r', ' ', 'h', 'i', 'g', 'h', 'e', 'r']) =
      some (((n : ℚ) : WithBot ℚ), ⊤))
    ∧ (∀ a b : ℤ, parseBracketRange (intChars a ++ '-' :: (intChars b ++ ['°', 'C'])) =
      some ((((a : ℚ) * 9 / 5 + 32 : ℚ) : WithBot ℚ),
            (((b : ℚ) * 9 / 5 + 32 : ℚ) : WithTop ℚ)))
    ∧ parseBracketRange (String.toList "40-41°F") =
        some (((40 : ℚ) : WithBot ℚ), ((41 : ℚ) : WithTop ℚ))
    ∧ parseBracketRange (String.toList "33°F or below") =
        some (⊥, ((33 : ℚ) : WithTop ℚ))
    ∧ parseBracketRange (String.toList "48°F or higher") =
        some (((48 : ℚ) : WithBot ℚ), ⊤) :=
  ⟨parseBracketRange_rangeF, parseBracketRange_below, parseBracketRange_higher,
   parseBracketRange_rangeC, by decide, by decide, by decide⟩

end Raphael
